import Mathlib

/-!
# Velodyne raw packet decoding

A shallow embedding of `src/drivers/vl_lidar_driver/src/rawdata.cc`
(`RawData::setParameters`, `RawData::unpack`, `RawData::unpack_vlp16`).

Modelling conventions.

* `float` and `double` values are exact rationals (`ℚ`) and the decoders are
  evaluated in exact arithmetic.  For the corrected distance and the corrected
  azimuth the `float` values the code computes are given besides
  (`distance_f32`, `azimuth_corrected_32`), so that statements about the exact
  values can be compared with them.  `M_PI` is the rational value of the
  `double` constant of `math.h`.
* `int` is `Int`; the C operators `%` and `/` on `int` truncate toward zero
  (`Int.tmod`, `Int.tdiv`); a conversion of a floating value to `int`
  truncates toward zero (`truncToInt`); `round` rounds half away from zero
  (`cround`).
* `uint16_t` and `uint8_t` fields of a packet are naturals; the ranges
  `< 65536` and `< 256` are hypotheses where a statement needs them.
* The point sink (`DataContainerBase::addPoint`) is the list of the calls made
  to it, in call order.  Every entry also records the block index and the
  position of the return inside the block from which the call was made; these
  two fields are not arguments of `addPoint`, they only tell where a point
  comes from.
* The arrays `cos_rot_table_`, `sin_rot_table_` and `laser_corrections` are read
  through total functions.
-/

namespace velodyne_driver

/-! ## Constants of `rawdata.h` -/

/-- Number of blocks in a packet (`BLOCKS_PER_PACKET = 12`, line 334). -/
def BLOCKS_PER_PACKET : Nat := 12

/-- Number of returns in a block (`SCANS_PER_BLOCK`). -/
def SCANS_PER_BLOCK : Nat := 32

/-- Bytes per return (`RAW_SCAN_SIZE = 3`, line 381). -/
def RAW_SCAN_SIZE : Nat := 3

/-- Size of the angle tables (`ROTATION_MAX_UNITS = 36000u`, line 112). -/
def ROTATION_MAX_UNITS : Nat := 36000

/-- Metres per distance count (`DISTANCE_RESOLUTION = 0.002f`, line 404). -/
def DISTANCE_RESOLUTION : ℚ := 2 / 1000

/-- Marker of an upper-bank block (`UPPER_BANK = 0xeeff`, line 338). -/
def UPPER_BANK : Nat := 0xeeff

/-- Modelled from the spec: the header `rawdata.h` is not among the sources; the
second recognized block marker ("lower bank") of the protocol, `0xddff`. -/
def LOWER_BANK : Nat := 0xddff

/-- Firing groups per block (`VLP16_FIRINGS_PER_BLOCK = 2`, line 379). -/
def VLP16_FIRINGS_PER_BLOCK : Nat := 2

/-- Beams per firing group (`VLP16_SCANS_PER_FIRING = 16`, line 381). -/
def VLP16_SCANS_PER_FIRING : Nat := 16

/-- Modelled from the spec: the header `rawdata.h` is not among the sources; the
total duration of a block in the timing model of the device, in microseconds. -/
def VLP16_BLOCK_TDURATION : ℚ := 110.592

/-- Modelled from the spec: the header `rawdata.h` is not among the sources; the
time offset between two consecutive beams of a firing group, in microseconds. -/
def VLP16_DSR_TOFFSET : ℚ := 2.304

/-- Modelled from the spec: the header `rawdata.h` is not among the sources; the
time offset between the two firing groups of a block, in microseconds. -/
def VLP16_FIRING_TOFFSET : ℚ := 55.296

/-- The `double` constant `M_PI` of `math.h`, as an exact rational. -/
def M_PI : ℚ := 884279719003555 / 281474976710656

/-! ## C arithmetic helpers -/

/-- Conversion of a floating value to `int`: truncation toward zero. -/
def truncToInt (q : ℚ) : Int := if 0 ≤ q then ⌊q⌋ else ⌈q⌉

/-- The C function `fmod`: the result has the sign of `x`. -/
def fmod (x y : ℚ) : ℚ := x - y * (truncToInt (x / y) : ℚ)

/-- The C function `round` followed by the cast to `int`: half away from zero. -/
def cround (q : ℚ) : Int := if 0 ≤ q then ⌊q + 1 / 2⌋ else ⌈q - 1 / 2⌉

/-! ## Data model -/

/-- Per-beam calibration record (`velodyne_driver::LaserCorrection`), with the
fields the decoders read. -/
structure LaserCorrection where
  dist_correction : ℚ
  two_pt_correction_available : Bool
  dist_correction_x : ℚ
  dist_correction_y : ℚ
  vert_offset_correction : ℚ
  horiz_offset_correction : ℚ
  max_intensity : ℚ
  min_intensity : ℚ
  focal_distance : ℚ
  focal_slope : ℚ
  cos_rot_correction : ℚ
  sin_rot_correction : ℚ
  cos_vert_correction : ℚ
  sin_vert_correction : ℚ
  laser_ring : Int

/-- Calibration table (`calibration_`). -/
structure Calibration where
  num_lasers : Int
  laser_corrections : Nat → LaserCorrection

/-- Range and region configuration (`config_`).  The two angular bounds are
`int` (line 67: "a centered double to int conversion"); the other fields are
`double`. -/
structure Config where
  min_range : ℚ
  max_range : ℚ
  tmp_min_angle : ℚ
  tmp_max_angle : ℚ
  min_angle : Int
  max_angle : Int

/-- One block of a packet (`raw_block_t`): marker, rotation, 96 data bytes. -/
structure raw_block where
  header : Nat
  rotation : Nat
  data : Nat → Nat

/-- A packet (`velodyne_msgs::VelodynePacket` read as `raw_packet_t`): the
receipt time `stamp.toSec()` and the blocks. -/
structure VelodynePacket where
  stamp : ℚ
  blocks : Nat → raw_block

/-- The arguments of one call of `addPoint`. -/
structure Point where
  x : ℚ
  y : ℚ
  z : ℚ
  ring : Int
  azimuth : Int
  distance : ℚ
  intensity : ℚ

/-- A call of `addPoint` together with the place it was made from: the block
index and the index of the return in the block (`k / RAW_SCAN_SIZE`). -/
structure Emitted where
  block : Nat
  scan : Nat
  pt : Point

/-- The decoder object: configuration, calibration, the two angle tables, and
the elevation function `round(pcl::rad2deg(atan2(z, sqrt(x^2 + y^2))))` of the
numeric library, applied to `(x_coord, y_coord, z_coord)`. -/
structure RawData where
  config_ : Config
  calibration_ : Calibration
  cos_rot_table_ : Int → ℚ
  sin_rot_table_ : Int → ℚ
  elevation_deg : ℚ → ℚ → ℚ → Int

/-! ## `RawData::setParameters` (lines 50–79) -/

/-- Lines 68–69: conversion of a reduced angle to the hardware reference,
`100 * (2 * M_PI - tmp) * 180 / M_PI + 0.5` stored in an `int`. -/
def toHardwareAngle (tmp : ℚ) : Int :=
  truncToInt (100 * (2 * M_PI - tmp) * 180 / M_PI + 1 / 2)

/-- Lines 63–64: `fmod(fmod(a, 2 * M_PI) + 2 * M_PI, 2 * M_PI)`. -/
def positiveModulo (a : ℚ) : ℚ := fmod (fmod a (2 * M_PI) + 2 * M_PI) (2 * M_PI)

/-- The configuration stored by `RawData::setParameters`. -/
def setParameters (min_range max_range view_direction view_width : ℚ) : Config :=
  let tmp_min_angle := positiveModulo (view_direction + view_width / 2)
  let tmp_max_angle := positiveModulo (view_direction - view_width / 2)
  let min_angle := toHardwareAngle tmp_min_angle
  let max_angle := toHardwareAngle tmp_max_angle
  if min_angle = max_angle then
    { min_range := min_range, max_range := max_range,
      tmp_min_angle := tmp_min_angle, tmp_max_angle := tmp_max_angle,
      min_angle := 0, max_angle := 36000 }
  else
    { min_range := min_range, max_range := max_range,
      tmp_min_angle := tmp_min_angle, tmp_max_angle := tmp_max_angle,
      min_angle := min_angle, max_angle := max_angle }

/-! ## Filters -/

/-- The angular containment test of lines 201–204 and 396–399, for the bounds
`config_.min_angle`, `config_.max_angle` and the azimuth `a`. -/
def angleInView (min_angle max_angle a : Int) : Bool :=
  (decide (a ≥ min_angle) && decide (a ≤ max_angle) && decide (min_angle < max_angle)) ||
  (decide (min_angle > max_angle) && (decide (a ≤ max_angle) || decide (a ≥ min_angle)))

/-- Modelled from the spec: `RawData::pointInRange` is defined in `rawdata.h`,
which is not among the sources; section 4.6 gives
`pointInRange(distance) = min_range ≤ distance ≤ max_range`. -/
def pointInRange (c : Config) (range : ℚ) : Bool :=
  decide (range ≥ c.min_range) && decide (range ≤ c.max_range)

/-! ## Per-return computation shared by both decoders
(lines 206–284 and 404–482 are the same text) -/

/-- The 16-bit count `tmp.uint` of the return at byte offset `k`
(`tmp.bytes[0] = data[k]`, `tmp.bytes[1] = data[k + 1]`). -/
def tmp_uint (blk : raw_block) (k : Nat) : Nat := blk.data k + 256 * blk.data (k + 1)

/-- Lines 206–207: `distance = tmp.uint * DISTANCE_RESOLUTION + dist_correction`,
in exact arithmetic; `distance_f32` is the `float` value the code computes. -/
def distance (c : LaserCorrection) (count : Nat) : ℚ :=
  (count : ℚ) * DISTANCE_RESOLUTION + c.dist_correction

/-- Lines 216–217. -/
def cos_rot_angle (rd : RawData) (c : LaserCorrection) (idx : Int) : ℚ :=
  rd.cos_rot_table_ idx * c.cos_rot_correction + rd.sin_rot_table_ idx * c.sin_rot_correction

/-- Lines 218–219. -/
def sin_rot_angle (rd : RawData) (c : LaserCorrection) (idx : Int) : ℚ :=
  rd.sin_rot_table_ idx * c.cos_rot_correction - rd.cos_rot_table_ idx * c.sin_rot_correction

/-- Lines 229, 261, 266: distance in the xy plane for a given radial distance. -/
def xy_distance (c : LaserCorrection) (d : ℚ) : ℚ :=
  d * c.cos_vert_correction - c.vert_offset_correction * c.sin_vert_correction

/-- Lines 232, 235–236: temporal X, made non-negative. -/
def xx (c : LaserCorrection) (cosr sinr d : ℚ) : ℚ :=
  let v := xy_distance c d * sinr - c.horiz_offset_correction * cosr
  if v < 0 then -v else v

/-- Lines 234, 237–238: temporal Y, made non-negative. -/
def yy (c : LaserCorrection) (cosr sinr d : ℚ) : ℚ :=
  let v := xy_distance c d * cosr + c.horiz_offset_correction * sinr
  if v < 0 then -v else v

/-- Lines 243–249: distance correction for the x axis. -/
def distance_corr_x (c : LaserCorrection) (xx : ℚ) : ℚ :=
  if c.two_pt_correction_available then
    ((c.dist_correction - c.dist_correction_x) * (xx - 2.4) / (25.04 - 2.4) + c.dist_correction_x)
      - c.dist_correction
  else 0

/-- Lines 244–253: distance correction for the y axis. -/
def distance_corr_y (c : LaserCorrection) (yy : ℚ) : ℚ :=
  if c.two_pt_correction_available then
    ((c.dist_correction - c.dist_correction_y) * (yy - 1.93) / (25.04 - 1.93) + c.dist_correction_y)
      - c.dist_correction
  else 0

/-- Line 256: `distance_x = distance + distance_corr_x`. -/
def distance_x (c : LaserCorrection) (cosr sinr d : ℚ) : ℚ :=
  d + distance_corr_x c (xx c cosr sinr d)

/-- Line 265: `distance_y = distance + distance_corr_y`. -/
def distance_y (c : LaserCorrection) (cosr sinr d : ℚ) : ℚ :=
  d + distance_corr_y c (yy c cosr sinr d)

/-- Lines 261–263: `x`. -/
def x_val (c : LaserCorrection) (cosr sinr d : ℚ) : ℚ :=
  xy_distance c (distance_x c cosr sinr d) * sinr - c.horiz_offset_correction * cosr

/-- Lines 266–271: `y`. -/
def y_val (c : LaserCorrection) (cosr sinr d : ℚ) : ℚ :=
  xy_distance c (distance_y c cosr sinr d) * cosr + c.horiz_offset_correction * sinr

/-- Line 279: `z`. -/
def z_val (c : LaserCorrection) (cosr sinr d : ℚ) : ℚ :=
  distance_y c cosr sinr d * c.sin_vert_correction + c.vert_offset_correction * c.cos_vert_correction

/-- Line 282: `x_coord = y`. -/
def x_coord (c : LaserCorrection) (cosr sinr d : ℚ) : ℚ := y_val c cosr sinr d

/-- Line 283: `y_coord = -x`. -/
def y_coord (c : LaserCorrection) (cosr sinr d : ℚ) : ℚ := -(x_val c cosr sinr d)

/-- Line 284: `z_coord = z`. -/
def z_coord (c : LaserCorrection) (cosr sinr d : ℚ) : ℚ := z_val c cosr sinr d

/-! ## Reflectivity of the generic decoder (lines 286–299) -/

/-- Line 293. -/
def focal_offset (c : LaserCorrection) : ℚ :=
  256 * (1 - c.focal_distance / 13100) * (1 - c.focal_distance / 13100)

/-- Lines 291–297: the intensity before clamping. -/
def computed_intensity (c : LaserCorrection) (raw_byte count : Nat) : ℚ :=
  (raw_byte : ℚ) + c.focal_slope *
    abs (focal_offset c - 256 * (1 - (count : ℚ) / 65535) * (1 - (count : ℚ) / 65535))

/-- Lines 298–299: the two clamping assignments, in source order. -/
def clamp_intensity (c : LaserCorrection) (intensity : ℚ) : ℚ :=
  let intensity1 := if intensity < c.min_intensity then c.min_intensity else intensity
  if intensity1 > c.max_intensity then c.max_intensity else intensity1

/-! ## Generic decoder: `RawData::unpack`, lines 170–310 -/

/-- Lines 177–182: `bank_origin`. -/
def bank_origin (header : Nat) : Nat := if header = LOWER_BANK then 32 else 0

/-- Line 191: `laser_number = j + bank_origin`, a `uint8_t`. -/
def laser_number (header j : Nat) : Nat := (j + bank_origin header) % 256

/-- The arguments of the call of `addPoint` of lines 303–304 for return `j` of
block `i`. -/
def genericPoint (rd : RawData) (pkt : VelodynePacket) (i j : Nat) : Point :=
  let blk := pkt.blocks i
  let k := j * RAW_SCAN_SIZE
  let corrections := rd.calibration_.laser_corrections (laser_number blk.header j)
  let d := distance corrections (tmp_uint blk k)
  let cosr := cos_rot_angle rd corrections blk.rotation
  let sinr := sin_rot_angle rd corrections blk.rotation
  { x := x_coord corrections cosr sinr d
    y := y_coord corrections cosr sinr d
    z := z_coord corrections cosr sinr d
    ring := corrections.laser_ring
    azimuth := blk.rotation
    distance := d
    intensity := clamp_intensity corrections
      (computed_intensity corrections (blk.data (k + 2)) (tmp_uint blk k)) }

/-- Body of the inner loop (lines 186–306) for return `j` of block `i`. -/
def unpack_scan (rd : RawData) (pkt : VelodynePacket) (i : Nat) (data : List Emitted) (j : Nat) :
    List Emitted :=
  let blk := pkt.blocks i
  let k := j * RAW_SCAN_SIZE
  let corrections := rd.calibration_.laser_corrections (laser_number blk.header j)
  if angleInView rd.config_.min_angle rd.config_.max_angle blk.rotation then
    if pointInRange rd.config_ (distance corrections (tmp_uint blk k)) then
      data ++ [{ block := i, scan := j, pt := genericPoint rd pkt i j }]
    else data
  else data

/-- Body of the outer loop (lines 173–307) for block `i`: the inner loop over
`j = 0 .. SCANS_PER_BLOCK - 1`. -/
def unpack_block (rd : RawData) (pkt : VelodynePacket) (data : List Emitted) (i : Nat) :
    List Emitted :=
  (List.range SCANS_PER_BLOCK).foldl (unpack_scan rd pkt i) data

/-- Lines 170–310: the generic decoder; returns `time` and the sink. -/
def unpack_generic (rd : RawData) (pkt : VelodynePacket) : ℚ × List Emitted :=
  (pkt.stamp, (List.range BLOCKS_PER_PACKET).foldl (unpack_block rd pkt) [])

/-! ## 16-beam decoder: `RawData::unpack_vlp16`, lines 318–511 -/

/-- Lines 350–351: the wrapped azimuth difference
`(36000 + raw_azimuth_diff) % 36000`, an `int` expression. -/
def wrapped_azimuth_diff (raw_azimuth_diff : Int) : Int :=
  (36000 + raw_azimuth_diff).tmod 36000

/-- Line 350: `raw_azimuth_diff = blocks[block + 1].rotation - blocks[block].rotation`. -/
def raw_azimuth_diff (pkt : VelodynePacket) (block : Nat) : Int :=
  ((pkt.blocks (block + 1)).rotation : Int) - ((pkt.blocks block).rotation : Int)

/-- Lines 390–391: `azimuth_corrected_f`, in exact arithmetic;
`azimuth_corrected_f32` is the `float` value the code computes. -/
def azimuth_corrected_f (azimuth azimuth_diff : ℚ) (firing dsr : Nat) : ℚ :=
  azimuth + (azimuth_diff * (((dsr : ℚ) * VLP16_DSR_TOFFSET) + ((firing : ℚ) * VLP16_FIRING_TOFFSET))
    / VLP16_BLOCK_TDURATION)

/-- Line 392: `azimuth_corrected = ((int) round(azimuth_corrected_f)) % 36000`,
applied to the exact value; `azimuth_corrected_32` applies it to the `float`
value. -/
def azimuth_corrected (azimuth azimuth_diff : ℚ) (firing dsr : Nat) : Int :=
  (cround (azimuth_corrected_f azimuth azimuth_diff firing dsr)).tmod 36000

/-- Lines 484–485: the reflectivity code, `(elevation + 15) / 2` on `int`. -/
def vlp16_intensity (rd : RawData) (xc yc zc : ℚ) : Int :=
  (rd.elevation_deg xc yc zc + 15).tdiv 2

/-- The arguments of the call of `addPoint` of line 504 for the return
`(firing, dsr)` of block `block`, decoded with `azimuth_diff`. -/
def vlp16Point (rd : RawData) (pkt : VelodynePacket) (block : Nat) (azimuth_diff : ℚ)
    (firing dsr : Nat) : Point :=
  let blk := pkt.blocks block
  let k := (firing * VLP16_SCANS_PER_FIRING + dsr) * RAW_SCAN_SIZE
  let corrections := rd.calibration_.laser_corrections dsr
  let az := azimuth_corrected (blk.rotation : ℚ) azimuth_diff firing dsr
  let d := distance corrections (tmp_uint blk k)
  let cosr := cos_rot_angle rd corrections az
  let sinr := sin_rot_angle rd corrections az
  { x := x_coord corrections cosr sinr d
    y := y_coord corrections cosr sinr d
    z := z_coord corrections cosr sinr d
    ring := corrections.laser_ring
    azimuth := az
    distance := d
    intensity := (vlp16_intensity rd (x_coord corrections cosr sinr d)
      (y_coord corrections cosr sinr d) (z_coord corrections cosr sinr d) : Int) }

/-- The variables of `unpack_vlp16` that live across loop iterations: `time`,
`last_azimuth_diff` and the sink. -/
structure Vlp16State where
  time : ℚ
  last_azimuth_diff : ℚ
  data : List Emitted

/-- Body of the innermost loop (lines 382–506) for the return `(firing, dsr)`;
`k` advances by `RAW_SCAN_SIZE` per return across both firing groups. -/
def vlp16_scan (rd : RawData) (pkt : VelodynePacket) (block : Nat) (azimuth_diff : ℚ)
    (firing : Nat) (s : Vlp16State) (dsr : Nat) : Vlp16State :=
  let blk := pkt.blocks block
  let k := (firing * VLP16_SCANS_PER_FIRING + dsr) * RAW_SCAN_SIZE
  let corrections := rd.calibration_.laser_corrections dsr
  if angleInView rd.config_.min_angle rd.config_.max_angle
      (azimuth_corrected (blk.rotation : ℚ) azimuth_diff firing dsr) then
    if pointInRange rd.config_ (distance corrections (tmp_uint blk k)) then
      { s with
        time := pkt.stamp
        data := s.data ++ [{ block := block, scan := firing * VLP16_SCANS_PER_FIRING + dsr,
                             pt := vlp16Point rd pkt block azimuth_diff firing dsr }] }
    else { s with time := pkt.stamp }
  else s

/-- The loop over `dsr` (line 380) for one firing group. -/
def vlp16_firing (rd : RawData) (pkt : VelodynePacket) (block : Nat) (azimuth_diff : ℚ)
    (s : Vlp16State) (firing : Nat) : Vlp16State :=
  (List.range VLP16_SCANS_PER_FIRING).foldl (vlp16_scan rd pkt block azimuth_diff firing) s

/-- The loop over `firing` (line 378): all returns of one block. -/
def vlp16_block (rd : RawData) (pkt : VelodynePacket) (block : Nat) (azimuth_diff : ℚ)
    (s : Vlp16State) : Vlp16State :=
  (List.range VLP16_FIRINGS_PER_BLOCK).foldl (vlp16_firing rd pkt block azimuth_diff) s

/-- The loop over the blocks (lines 333–509), started at `block` with `n`
iterations left.  A marker mismatch returns (line 343); a negative raw
difference without a positive `last_azimuth_diff` continues with the next
block (line 368). -/
def vlp16_blocks (rd : RawData) (pkt : VelodynePacket) : Nat → Nat → Vlp16State → Vlp16State
  | 0, _, s => s
  | n + 1, block, s =>
    if UPPER_BANK ≠ (pkt.blocks block).header then s
    else if block < BLOCKS_PER_PACKET - 1 then
      if raw_azimuth_diff pkt block < 0 then
        if s.last_azimuth_diff > 0 then
          vlp16_blocks rd pkt n (block + 1)
            (vlp16_block rd pkt block s.last_azimuth_diff
              { s with last_azimuth_diff := s.last_azimuth_diff })
        else vlp16_blocks rd pkt n (block + 1) s
      else
        vlp16_blocks rd pkt n (block + 1)
          (vlp16_block rd pkt block ((wrapped_azimuth_diff (raw_azimuth_diff pkt block) : Int) : ℚ)
            { s with
              last_azimuth_diff := ((wrapped_azimuth_diff (raw_azimuth_diff pkt block) : Int) : ℚ) })
    else
      vlp16_blocks rd pkt n (block + 1) (vlp16_block rd pkt block s.last_azimuth_diff s)

/-- Lines 320–331: the state at the entry of the loop. -/
def vlp16_init : Vlp16State := { time := 0, last_azimuth_diff := 0, data := [] }

/-- The decoder `RawData::unpack_vlp16`: returns `time` and the sink. -/
def unpack_vlp16 (rd : RawData) (pkt : VelodynePacket) : ℚ × List Emitted :=
  let s := vlp16_blocks rd pkt BLOCKS_PER_PACKET 0 vlp16_init
  (s.time, s.data)

/-- The decoder `RawData::unpack` (lines 157–311): dispatch on the number of
lasers of the calibration. -/
def unpack (rd : RawData) (pkt : VelodynePacket) : ℚ × List Emitted :=
  if rd.calibration_.num_lasers = 16 then unpack_vlp16 rd pkt
  else unpack_generic rd pkt

/-! ## Characterisations used in the statements -/

/-- The two filters of the generic decoder for return `j` of block `i`
(lines 201–204 and 301). -/
def genericPasses (rd : RawData) (pkt : VelodynePacket) (i j : Nat) : Bool :=
  angleInView rd.config_.min_angle rd.config_.max_angle (pkt.blocks i).rotation &&
  pointInRange rd.config_
    (distance (rd.calibration_.laser_corrections (laser_number (pkt.blocks i).header j))
      (tmp_uint (pkt.blocks i) (j * RAW_SCAN_SIZE)))

/-- The sink entry of the generic decoder for return `j` of block `i`. -/
def genericEmitted (rd : RawData) (pkt : VelodynePacket) (i j : Nat) : Emitted :=
  { block := i, scan := j, pt := genericPoint rd pkt i j }

/-- Section 4.3 of the specification, the angular containment test: azimuth `a`
is inside `[min, max]` if `min < max` and `min ≤ a ≤ max`, or, in the wrap-around
case `min > max`, if `a ≤ max` or `a ≥ min`. -/
def specContains (min max a : Int) : Prop :=
  (min < max ∧ min ≤ a ∧ a ≤ max) ∨ (min > max ∧ (a ≤ max ∨ a ≥ min))

instance (min max a : Int) : Decidable (specContains min max a) := by
  unfold specContains; infer_instance

/-- Sections 4.4 and 4.6 of the specification: the corrected distance of return
`j` of block `i`, the little-endian 16-bit count times `0.002` plus the base
distance correction of the beam `j + bank origin`. -/
def specDistance (rd : RawData) (pkt : VelodynePacket) (i j : Nat) : ℚ :=
  (((pkt.blocks i).data (3 * j) : ℚ) + 256 * ((pkt.blocks i).data (3 * j + 1) : ℚ)) * 0.002
    + (rd.calibration_.laser_corrections (j + bank_origin (pkt.blocks i).header)).dist_correction

/-- Step 8 of section 4.4 of the specification: the point of return `j` of
block `i` is emitted when the raw rotation of the block passes the containment
test and the corrected distance lies in `[min_range, max_range]`. -/
def specEmits (rd : RawData) (pkt : VelodynePacket) (ij : Nat × Nat) : Prop :=
  specContains rd.config_.min_angle rd.config_.max_angle (pkt.blocks ij.1).rotation ∧
  rd.config_.min_range ≤ specDistance rd pkt ij.1 ij.2 ∧
  specDistance rd pkt ij.1 ij.2 ≤ rd.config_.max_range

instance (rd : RawData) (pkt : VelodynePacket) (ij : Nat × Nat) :
    Decidable (specEmits rd pkt ij) := by
  unfold specEmits; infer_instance

/-- The 12 x 32 returns of a packet in decode order: block order, then beam
order within the block. -/
def specReturns : List (Nat × Nat) :=
  (List.range 12).flatMap fun i => (List.range 32).map fun j => (i, j)

/-- The sink sequence of the generic decoder as the specification describes it:
the enumeration of the returns, filtered by the two tests. -/
def unpack_spec (rd : RawData) (pkt : VelodynePacket) : List Emitted :=
  (specReturns.filter fun ij => decide (specEmits rd pkt ij)).map
    fun ij => genericEmitted rd pkt ij.1 ij.2

/-- A sink entry of the 16-beam decoder that comes from return `(firing, dsr)`
of block `block` decoded with azimuth difference `ad`: it passed both filters
of lines 396–399 and 502. -/
def Vlp16From (rd : RawData) (pkt : VelodynePacket) (block : Nat) (ad : ℚ) (firing dsr : Nat)
    (e : Emitted) : Prop :=
  e = { block := block, scan := firing * VLP16_SCANS_PER_FIRING + dsr,
        pt := vlp16Point rd pkt block ad firing dsr } ∧
  angleInView rd.config_.min_angle rd.config_.max_angle
    (azimuth_corrected ((pkt.blocks block).rotation : ℚ) ad firing dsr) = true ∧
  pointInRange rd.config_
    (distance (rd.calibration_.laser_corrections dsr)
      (tmp_uint (pkt.blocks block) ((firing * VLP16_SCANS_PER_FIRING + dsr) * RAW_SCAN_SIZE))) = true

/-- Lines 346–376: the azimuth difference with which the returns of block
`block` are decoded when `last_azimuth_diff` has the given value at the entry of
the iteration; `none` when the block is skipped by the `continue` of line 368. -/
def select_azimuth_diff (pkt : VelodynePacket) (block : Nat) (last_azimuth_diff : ℚ) :
    Option ℚ :=
  if block < BLOCKS_PER_PACKET - 1 then
    if raw_azimuth_diff pkt block < 0 then
      if last_azimuth_diff > 0 then some last_azimuth_diff else none
    else some ((wrapped_azimuth_diff (raw_azimuth_diff pkt block) : Int) : ℚ)
  else some last_azimuth_diff

/-- The time offset of return `(firing, dsr)` inside its block (lines 390–391):
`dsr * VLP16_DSR_TOFFSET + firing * VLP16_FIRING_TOFFSET`. -/
def intra_block_toffset (firing dsr : Nat) : ℚ :=
  ((dsr : ℚ) * VLP16_DSR_TOFFSET) + ((firing : ℚ) * VLP16_FIRING_TOFFSET)

/-- A beam calibration without mechanical offsets and without two-point
correction whose vertical and rotational entries are sine and cosine of an
angle: `sin^2 + cos^2 = 1` for both pairs. -/
def idealBeam (c : LaserCorrection) : Prop :=
  c.horiz_offset_correction = 0 ∧ c.vert_offset_correction = 0 ∧
  c.two_pt_correction_available = false ∧
  c.sin_vert_correction ^ 2 + c.cos_vert_correction ^ 2 = 1 ∧
  c.sin_rot_correction ^ 2 + c.cos_rot_correction ^ 2 = 1

/-- The entries of the two angle tables at index `idx` are sine and cosine of
an angle: `sin^2 + cos^2 = 1`. -/
def unitTableEntry (rd : RawData) (idx : Int) : Prop :=
  rd.sin_rot_table_ idx ^ 2 + rd.cos_rot_table_ idx ^ 2 = 1

/-! ## Single-precision values of the distance and azimuth expressions

The definitions above evaluate the expressions of the source in exact
arithmetic.  The two expressions whose value decides which points are emitted
and is reported with them are also given as the code evaluates them, in
`float` (IEEE 754 binary32) arithmetic with rounding to nearest, ties to even. -/

/-- A beam calibration without any correction. -/
def plainCorrection : LaserCorrection :=
  { dist_correction := 0, two_pt_correction_available := false,
    dist_correction_x := 0, dist_correction_y := 0,
    vert_offset_correction := 0, horiz_offset_correction := 0,
    max_intensity := 255, min_intensity := 0,
    focal_distance := 0, focal_slope := 0,
    cos_rot_correction := 1, sin_rot_correction := 0,
    cos_vert_correction := 1, sin_vert_correction := 0,
    laser_ring := 0 }

/-- A beam calibration with two-point calibration: base correction 0, the
corrections `0.1` for the x axis and `0.2` for the y axis. -/
def twoPointCorrection : LaserCorrection :=
  { plainCorrection with
    two_pt_correction_available := true, dist_correction_x := 1 / 10, dist_correction_y := 2 / 10 }

/-- A beam calibration without offsets whose vertical angle has
`(sin, cos) = (5/13, 12/13)` and whose rotational correction has
`(sin, cos) = (3/5, 4/5)`. -/
def tiltedCorrection : LaserCorrection :=
  { plainCorrection with
    cos_vert_correction := 12 / 13, sin_vert_correction := 5 / 13,
    cos_rot_correction := 4 / 5, sin_rot_correction := 3 / 5 }

/-- A 64-beam decoder all of whose beams are calibrated by `tiltedCorrection`
and whose table entries are `(sin, cos) = (4/5, 3/5)` at every index. -/
def tiltedDecoder (cfg : Config) : RawData :=
  { config_ := cfg
    calibration_ := { num_lasers := 64, laser_corrections := fun _ => tiltedCorrection }
    cos_rot_table_ := fun _ => 3 / 5
    sin_rot_table_ := fun _ => 4 / 5
    elevation_deg := fun _ _ _ => 0 }

/-- A beam calibration whose reflectivity bounds are in the wrong order. -/
def swappedBounds : LaserCorrection :=
  { plainCorrection with min_intensity := 10, max_intensity := 5 }

/-- A decoder with `num_lasers` beams, all calibrated by `plainCorrection`, and
configuration `cfg`. -/
def plainDecoder (num_lasers : Int) (cfg : Config) : RawData :=
  { config_ := cfg
    calibration_ := { num_lasers := num_lasers, laser_corrections := fun _ => plainCorrection }
    cos_rot_table_ := fun _ => 1
    sin_rot_table_ := fun _ => 0
    elevation_deg := fun _ _ _ => 0 }

/-- A 64-beam decoder all of whose beams are calibrated by `swappedBounds`. -/
def swappedDecoder (cfg : Config) : RawData :=
  { config_ := cfg
    calibration_ := { num_lasers := 64, laser_corrections := fun _ => swappedBounds }
    cos_rot_table_ := fun _ => 1
    sin_rot_table_ := fun _ => 0
    elevation_deg := fun _ _ _ => 0 }

/-- The configuration of the default parameters of `setup` (lines 87–90, 98):
`setParameters(0.3, 150.0, 0.0, 0.0)`. -/
def defaultConfig : Config := setParameters (3 / 10) 150 0 0

/-- A view of one radian centred on direction `-1`:
`setParameters(0.3, 150.0, -1.0, 1.0)`. -/
def narrowConfig : Config := setParameters (3 / 10) 150 (-1) 1

/-- A packet received at time `5` whose blocks all have rotation `0` and data
bytes `1`; block `0` has marker `0`, the other blocks the marker `UPPER_BANK`. -/
def badFirstPacket : VelodynePacket :=
  { stamp := 5
    blocks := fun i =>
      { header := if i = 0 then 0 else UPPER_BANK, rotation := 0, data := fun _ => 1 } }

/-- A packet received at time `5` whose blocks all have rotation `0` and data
bytes `1`; block `1` has marker `0`, the other blocks the marker `UPPER_BANK`. -/
def badSecondPacket : VelodynePacket :=
  { stamp := 5
    blocks := fun i =>
      { header := if i = 1 then 0 else UPPER_BANK, rotation := 0, data := fun _ => 1 } }

/-- A packet received at time `5` whose blocks all have the marker `UPPER_BANK`,
rotation `0` and data bytes `1`. -/
def steadyPacket : VelodynePacket :=
  { stamp := 5
    blocks := fun _ => { header := UPPER_BANK, rotation := 0, data := fun _ => 1 } }

/-- A packet all of whose blocks have the marker `UPPER_BANK` and data bytes `1`;
the rotation is `100` in blocks `0` and `1` and `50` in every later block. -/
def stalledPacket : VelodynePacket :=
  { stamp := 5
    blocks := fun i =>
      { header := UPPER_BANK, rotation := if i ≤ 1 then 100 else 50, data := fun _ => 1 } }

/-- A packet all of whose blocks have the marker `UPPER_BANK` and data bytes `1`;
the rotation is `100` in block `0`, `300` in block `1` and `200` in every later
block. -/
def jitterPacket : VelodynePacket :=
  { stamp := 5
    blocks := fun i =>
      { header := UPPER_BANK
        rotation := if i = 0 then 100 else if i = 1 then 300 else 200
        data := fun _ => 1 } }

/-- A packet all of whose blocks have the marker `UPPER_BANK`, the rotation
`36000` and data bytes `1`. -/
def overflowPacket : VelodynePacket :=
  { stamp := 5
    blocks := fun _ => { header := UPPER_BANK, rotation := 36000, data := fun _ => 1 } }

/-- A view of one radian centred on direction `0`:
`setParameters(0.3, 150.0, 0.0, 1.0)`. -/
def frontConfig : Config := setParameters (3 / 10) 150 0 1

/-- A packet with rotation `35900` in block `0` and `100` in every other
block. -/
def wrapPacket : VelodynePacket :=
  { stamp := 5
    blocks := fun i =>
      { header := UPPER_BANK, rotation := if i = 0 then 35900 else 100, data := fun _ => 1 } }

/-! ## The 16-beam decoder and block markers -/

theorem vlp16_scan_data_mem (rd : RawData) (pkt : VelodynePacket) (block : Nat) (ad : ℚ)
    (firing : Nat) (s : Vlp16State) (dsr : Nat) (e : Emitted)
    (h : e ∈ (vlp16_scan rd pkt block ad firing s dsr).data) :
    e ∈ s.data ∨ Vlp16From rd pkt block ad firing dsr e := by
  unfold vlp16_scan at h
  simp only at h
  split_ifs at h with h1 h2
  · simp only [List.mem_append, List.mem_singleton] at h
    rcases h with h | h
    · exact Or.inl h
    · exact Or.inr ⟨h, h1, h2⟩
  · exact Or.inl h
  · exact Or.inl h

theorem vlp16_firing_data_mem (rd : RawData) (pkt : VelodynePacket) (block : Nat) (ad : ℚ)
    (firing : Nat) (l : List Nat) (s : Vlp16State) (e : Emitted)
    (h : e ∈ (l.foldl (vlp16_scan rd pkt block ad firing) s).data) :
    e ∈ s.data ∨ ∃ dsr ∈ l, Vlp16From rd pkt block ad firing dsr e := by
  induction l generalizing s with
  | nil => exact Or.inl h
  | cons dsr l ih =>
    rw [List.foldl_cons] at h
    rcases ih _ h with h1 | ⟨d, hd, h1⟩
    · rcases vlp16_scan_data_mem rd pkt block ad firing s dsr e h1 with h2 | h2
      · exact Or.inl h2
      · exact Or.inr ⟨dsr, List.mem_cons_self _ _, h2⟩
    · exact Or.inr ⟨d, List.mem_cons_of_mem _ hd, h1⟩

theorem vlp16_block_data_mem_aux (rd : RawData) (pkt : VelodynePacket) (block : Nat) (ad : ℚ)
    (l : List Nat) (s : Vlp16State) (e : Emitted)
    (h : e ∈ (l.foldl (vlp16_firing rd pkt block ad) s).data) :
    e ∈ s.data ∨ ∃ firing ∈ l, ∃ dsr < VLP16_SCANS_PER_FIRING,
      Vlp16From rd pkt block ad firing dsr e := by
  induction l generalizing s with
  | nil => exact Or.inl h
  | cons firing l ih =>
    rw [List.foldl_cons] at h
    rcases ih _ h with h1 | ⟨f, hf, h1⟩
    · rcases vlp16_firing_data_mem rd pkt block ad firing _ s e h1 with h2 | ⟨d, hd, h2⟩
      · exact Or.inl h2
      · exact Or.inr ⟨firing, List.mem_cons_self _ _, d, List.mem_range.mp hd, h2⟩
    · exact Or.inr ⟨f, List.mem_cons_of_mem _ hf, h1⟩

/-- Every sink entry after the returns of a block were processed was in the
sink before or comes from a return of that block that passed both filters. -/
theorem vlp16_block_data_mem (rd : RawData) (pkt : VelodynePacket) (block : Nat) (ad : ℚ)
    (s : Vlp16State) (e : Emitted) (h : e ∈ (vlp16_block rd pkt block ad s).data) :
    e ∈ s.data ∨ ∃ firing < VLP16_FIRINGS_PER_BLOCK, ∃ dsr < VLP16_SCANS_PER_FIRING,
      Vlp16From rd pkt block ad firing dsr e := by
  rcases vlp16_block_data_mem_aux rd pkt block ad _ s e h with h1 | ⟨f, hf, h1⟩
  · exact Or.inl h1
  · exact Or.inr ⟨f, List.mem_range.mp hf, h1⟩

/-- Entries added by `n` iterations started at block `b` come from returns of
the blocks `b, ..., b + n - 1` that passed both filters. -/
theorem vlp16_blocks_data_mem (rd : RawData) (pkt : VelodynePacket) (n : Nat) :
    ∀ (b : Nat) (s : Vlp16State), ∀ e ∈ (vlp16_blocks rd pkt n b s).data,
      e ∈ s.data ∨ ∃ block ad, b ≤ block ∧ block < b + n ∧
        ∃ firing < VLP16_FIRINGS_PER_BLOCK, ∃ dsr < VLP16_SCANS_PER_FIRING,
          Vlp16From rd pkt block ad firing dsr e := by
  induction n with
  | zero => intro b s e he; exact Or.inl (by simpa [vlp16_blocks] using he)
  | succ n ih =>
    intro b s e he
    have skip : ∀ e ∈ (vlp16_blocks rd pkt n (b + 1) s).data,
        e ∈ s.data ∨ ∃ block ad, b ≤ block ∧ block < b + (n + 1) ∧
          ∃ firing < VLP16_FIRINGS_PER_BLOCK, ∃ dsr < VLP16_SCANS_PER_FIRING,
            Vlp16From rd pkt block ad firing dsr e := by
      intro e he
      rcases ih (b + 1) s e he with h1 | ⟨blk, ad, h1, h2, h3⟩
      · exact Or.inl h1
      · exact Or.inr ⟨blk, ad, by omega, by omega, h3⟩
    have step : ∀ (ad : ℚ) (s1 : Vlp16State), s1.data = s.data →
        ∀ e ∈ (vlp16_blocks rd pkt n (b + 1) (vlp16_block rd pkt b ad s1)).data,
          e ∈ s.data ∨ ∃ block ad, b ≤ block ∧ block < b + (n + 1) ∧
            ∃ firing < VLP16_FIRINGS_PER_BLOCK, ∃ dsr < VLP16_SCANS_PER_FIRING,
              Vlp16From rd pkt block ad firing dsr e := by
      intro ad s1 hs1 e he
      rcases ih (b + 1) _ e he with h1 | ⟨blk, ad1, h1, h2, h3⟩
      · rcases vlp16_block_data_mem rd pkt b ad s1 e h1 with h4 | h4
        · exact Or.inl (hs1 ▸ h4)
        · exact Or.inr ⟨b, ad, le_refl b, by omega, h4⟩
      · exact Or.inr ⟨blk, ad1, by omega, by omega, h3⟩
    rw [vlp16_blocks] at he
    split_ifs at he
    · exact Or.inl he
    · exact step _ _ rfl e he
    · exact skip e he
    · refine step _ _ ?_ e he
      rfl
    · exact step _ _ rfl e he

/-- All sink entries of `unpack_vlp16` come from returns that passed both
filters, of blocks `0 .. 11`. -/
theorem unpack_vlp16_data_mem (rd : RawData) (pkt : VelodynePacket) (e : Emitted)
    (he : e ∈ (unpack_vlp16 rd pkt).2) :
    ∃ block ad, block < BLOCKS_PER_PACKET ∧
      ∃ firing < VLP16_FIRINGS_PER_BLOCK, ∃ dsr < VLP16_SCANS_PER_FIRING,
        Vlp16From rd pkt block ad firing dsr e := by
  rcases vlp16_blocks_data_mem rd pkt BLOCKS_PER_PACKET 0 vlp16_init e he with h | h
  · simp [vlp16_init] at h
  · obtain ⟨blk, ad, _, h2, h3⟩ := h
    exact ⟨blk, ad, by omega, h3⟩

/-- A marker mismatch at block `b + m` ends the loop there: more iterations
change nothing. -/
theorem vlp16_blocks_stop (rd : RawData) (pkt : VelodynePacket) (m : Nat) :
    ∀ (n b : Nat) (s : Vlp16State), m < n → (pkt.blocks (b + m)).header ≠ UPPER_BANK →
      vlp16_blocks rd pkt n b s = vlp16_blocks rd pkt m b s := by
  induction m with
  | zero =>
    intro n b s hn hbad
    obtain ⟨n, rfl⟩ : ∃ k, n = k + 1 := ⟨n - 1, by omega⟩
    have hb : UPPER_BANK ≠ (pkt.blocks b).header := fun h => hbad (by simpa using h.symm)
    simp [vlp16_blocks, hb]
  | succ m ih =>
    intro n b s hn hbad
    obtain ⟨n, rfl⟩ : ∃ k, n = k + 1 := ⟨n - 1, by omega⟩
    have hbad1 : (pkt.blocks (b + 1 + m)).header ≠ UPPER_BANK := by
      have : b + 1 + m = b + (m + 1) := by omega
      rw [this]; exact hbad
    have hn1 : m < n := by omega
    rw [vlp16_blocks, vlp16_blocks]
    split_ifs
    · rfl
    · exact ih n (b + 1) _ hn1 hbad1
    · exact ih n (b + 1) _ hn1 hbad1
    · exact ih n (b + 1) _ hn1 hbad1
    · exact ih n (b + 1) _ hn1 hbad1

/-- The sink of `unpack_vlp16` when block `i` has a wrong marker: what the loop
collected before it reached block `i`, all of it from blocks before `i`. -/
theorem unpack_vlp16_stop (rd : RawData) (pkt : VelodynePacket) (i : Nat)
    (hi : i < BLOCKS_PER_PACKET) (hbad : (pkt.blocks i).header ≠ UPPER_BANK) :
    unpack_vlp16 rd pkt =
        ((vlp16_blocks rd pkt i 0 vlp16_init).time, (vlp16_blocks rd pkt i 0 vlp16_init).data) ∧
      ∀ e ∈ (unpack_vlp16 rd pkt).2, e.block < i := by
  have hstop : vlp16_blocks rd pkt BLOCKS_PER_PACKET 0 vlp16_init =
      vlp16_blocks rd pkt i 0 vlp16_init :=
    vlp16_blocks_stop rd pkt i BLOCKS_PER_PACKET 0 vlp16_init hi (by simpa using hbad)
  have heq : unpack_vlp16 rd pkt =
      ((vlp16_blocks rd pkt i 0 vlp16_init).time, (vlp16_blocks rd pkt i 0 vlp16_init).data) := by
    unfold unpack_vlp16
    rw [hstop]
  refine ⟨heq, ?_⟩
  intro e he
  rw [heq] at he
  rcases vlp16_blocks_data_mem rd pkt i 0 vlp16_init e he with h | ⟨blk, ad, _, h2, _, _, _, _, h3⟩
  · simp [vlp16_init] at h
  · rw [h3.1]
    simpa using h2

/-! ## Evaluation of `setParameters` -/

theorem truncToInt_of_nonneg (q : ℚ) (z : Int) (h0 : 0 ≤ q) (h1 : (z : ℚ) ≤ q)
    (h2 : q < z + 1) : truncToInt q = z := by
  unfold truncToInt
  rw [if_pos h0]
  exact Int.floor_eq_iff.mpr ⟨h1, h2⟩

theorem truncToInt_of_neg (q : ℚ) (z : Int) (h0 : q < 0) (h1 : (z : ℚ) - 1 < q)
    (h2 : q ≤ z) : truncToInt q = z := by
  unfold truncToInt
  rw [if_neg (not_le.mpr h0)]
  exact Int.ceil_eq_iff.mpr ⟨h1, h2⟩

theorem M_PI_pos : (0 : ℚ) < 2 * M_PI := by norm_num [M_PI]

/-- The double modulo of lines 63–64 on an angle in `(-2 * M_PI, 0)`. -/
theorem positiveModulo_small_neg (a : ℚ) (h0 : a < 0) (h1 : -(2 * M_PI) < a) :
    positiveModulo a = a + 2 * M_PI := by
  have hpi := M_PI_pos
  have e1 : truncToInt (a / (2 * M_PI)) = 0 := by
    apply truncToInt_of_neg
    · exact div_neg_of_neg_of_pos h0 hpi
    · rw [lt_div_iff₀ hpi]; push_cast; linarith
    · push_cast; exact le_of_lt (div_neg_of_neg_of_pos h0 hpi)
  have e2 : truncToInt ((a + 2 * M_PI) / (2 * M_PI)) = 0 := by
    apply truncToInt_of_nonneg
    · exact div_nonneg (by linarith) hpi.le
    · push_cast; exact div_nonneg (by linarith) hpi.le
    · rw [div_lt_iff₀ hpi]; push_cast; linarith
  unfold positiveModulo
  have f1 : fmod a (2 * M_PI) = a := by unfold fmod; rw [e1]; simp
  rw [f1]
  unfold fmod; rw [e2]; simp

/-- With `view_width = 0` both bounds coincide and are replaced. -/
theorem setParameters_zero_width (min_range max_range view_direction : ℚ) :
    setParameters min_range max_range view_direction 0 =
      { min_range := min_range, max_range := max_range,
        tmp_min_angle := positiveModulo view_direction,
        tmp_max_angle := positiveModulo view_direction,
        min_angle := 0, max_angle := 36000 } := by
  simp [setParameters]

theorem defaultConfig_eq : defaultConfig =
    { min_range := 3 / 10, max_range := 150,
      tmp_min_angle := positiveModulo 0, tmp_max_angle := positiveModulo 0,
      min_angle := 0, max_angle := 36000 } :=
  setParameters_zero_width _ _ _

theorem narrowConfig_angles : narrowConfig.min_angle = 2865 ∧ narrowConfig.max_angle = 8594 := by
  have h1 : toHardwareAngle (positiveModulo (-1 + 1 / 2)) = 2865 := by
    rw [positiveModulo_small_neg _ (by norm_num) (by norm_num [M_PI])]
    unfold toHardwareAngle
    apply truncToInt_of_nonneg <;> norm_num [M_PI]
  have h2 : toHardwareAngle (positiveModulo (-1 - 1 / 2)) = 8594 := by
    rw [positiveModulo_small_neg _ (by norm_num) (by norm_num [M_PI])]
    unfold toHardwareAngle
    apply truncToInt_of_nonneg <;> norm_num [M_PI]
  unfold narrowConfig setParameters
  simp only [h1, h2]
  constructor <;> rfl

/-! ## Azimuth interpolation -/

theorem cround_natCast (r : Nat) : cround (r : ℚ) = (r : Int) := by
  unfold cround
  rw [if_pos (by positivity)]
  rw [Int.floor_eq_iff]
  push_cast
  constructor <;> linarith

/-- With azimuth difference `0` every return of a block has the azimuth of the
block. -/
theorem azimuth_corrected_zero_diff (r firing dsr : Nat) :
    azimuth_corrected (r : ℚ) 0 firing dsr = (r : Int).tmod 36000 := by
  unfold azimuth_corrected azimuth_corrected_f
  simp [cround_natCast]

/-! ## Blocks all of whose returns pass the filters -/

theorem foldl_data_length {α : Type} (f : Vlp16State → α → Vlp16State) (l : List α) (k : Nat)
    (h : ∀ s, ∀ x ∈ l, (f s x).data.length = s.data.length + k) :
    ∀ s, (l.foldl f s).data.length = s.data.length + k * l.length := by
  induction l with
  | nil => intro s; simp
  | cons x l ih =>
    intro s
    rw [List.foldl_cons, ih (fun s y hy => h s y (List.mem_cons_of_mem _ hy)),
      h s x (List.mem_cons_self _ _), List.length_cons]
    ring

/-- A block all of whose returns pass both filters adds 32 entries to the
sink. -/
theorem vlp16_block_all_pass (rd : RawData) (pkt : VelodynePacket) (block : Nat) (ad : ℚ)
    (s : Vlp16State)
    (h : ∀ firing dsr,
      angleInView rd.config_.min_angle rd.config_.max_angle
        (azimuth_corrected ((pkt.blocks block).rotation : ℚ) ad firing dsr) = true ∧
      pointInRange rd.config_
        (distance (rd.calibration_.laser_corrections dsr)
          (tmp_uint (pkt.blocks block)
            ((firing * VLP16_SCANS_PER_FIRING + dsr) * RAW_SCAN_SIZE))) = true) :
    (vlp16_block rd pkt block ad s).data.length = s.data.length + 32 := by
  unfold vlp16_block
  rw [foldl_data_length _ _ 16]
  · simp [VLP16_FIRINGS_PER_BLOCK]
  · intro s1 firing _
    unfold vlp16_firing
    rw [foldl_data_length _ _ 1]
    · simp [VLP16_SCANS_PER_FIRING]
    · intro s2 dsr _
      unfold vlp16_scan
      simp [(h firing dsr).1, (h firing dsr).2]

/-- One iteration of the loop over the blocks when the marker is right, a next
block exists and the raw azimuth difference is 0. -/
theorem vlp16_blocks_step_zero_diff (rd : RawData) (pkt : VelodynePacket) (n b : Nat)
    (s : Vlp16State) (hh : (pkt.blocks b).header = UPPER_BANK) (hb : b < BLOCKS_PER_PACKET - 1)
    (hraw : raw_azimuth_diff pkt b = 0) :
    vlp16_blocks rd pkt (n + 1) b s =
      vlp16_blocks rd pkt n (b + 1)
        (vlp16_block rd pkt b 0 { s with last_azimuth_diff := 0 }) := by
  have hwrap : ((wrapped_azimuth_diff 0 : Int) : ℚ) = 0 := by
    have : wrapped_azimuth_diff 0 = 0 := by decide
    rw [this]
    rfl
  rw [vlp16_blocks, if_neg (by simp [hh]), if_pos hb, hraw, hwrap, if_neg (lt_irrefl 0)]

/-- The first block of `badSecondPacket` is decoded in full by a 16-beam decoder
with the default configuration; the second one ends the decoding. -/
theorem unpack_vlp16_badSecondPacket :
    (unpack_vlp16 (plainDecoder 16 defaultConfig) badSecondPacket).2.length = 32 := by
  have hstop := (unpack_vlp16_stop (plainDecoder 16 defaultConfig) badSecondPacket 1
    (by decide) (by decide)).1
  rw [hstop]
  show (vlp16_blocks (plainDecoder 16 defaultConfig) badSecondPacket (0 + 1) 0 vlp16_init).data.length
    = 32
  rw [vlp16_blocks_step_zero_diff _ _ _ _ _ (by decide) (by decide)
    (by simp [raw_azimuth_diff, badSecondPacket])]
  rw [vlp16_blocks, vlp16_block_all_pass]
  · rfl
  · intro firing dsr
    constructor
    · rw [show (badSecondPacket.blocks 0).rotation = 0 from rfl, azimuth_corrected_zero_diff]
      show angleInView defaultConfig.min_angle defaultConfig.max_angle _ = true
      rw [defaultConfig_eq]
      decide
    · show pointInRange defaultConfig _ = true
      rw [defaultConfig_eq]
      norm_num [pointInRange, distance, tmp_uint, badSecondPacket, plainDecoder, plainCorrection,
        DISTANCE_RESOLUTION]

/-! ## Evaluation of the single-precision rounding -/

/-- C1, counterexample: in `badFirstPacket` block 0 has a wrong marker and block
1 has the marker `UPPER_BANK`; every return of block 1 passes the angular test
(with the azimuth difference 0 to block 2) and the range test of the default
configuration, and yet `unpack_vlp16` emits no point at all. -/
theorem C1_later_block_is_dropped :
    (badFirstPacket.blocks 0).header ≠ UPPER_BANK ∧
    (badFirstPacket.blocks 1).header = UPPER_BANK ∧
    wrapped_azimuth_diff (raw_azimuth_diff badFirstPacket 1) = 0 ∧
    (∀ firing < VLP16_FIRINGS_PER_BLOCK, ∀ dsr < VLP16_SCANS_PER_FIRING,
      angleInView defaultConfig.min_angle defaultConfig.max_angle
          (azimuth_corrected ((badFirstPacket.blocks 1).rotation : ℚ) 0 firing dsr) = true ∧
        pointInRange defaultConfig
          (distance ((plainDecoder 16 defaultConfig).calibration_.laser_corrections dsr)
            (tmp_uint (badFirstPacket.blocks 1)
              ((firing * VLP16_SCANS_PER_FIRING + dsr) * RAW_SCAN_SIZE))) = true) ∧
    (unpack_vlp16 (plainDecoder 16 defaultConfig) badFirstPacket).2 = [] := by
  refine ⟨by decide, by decide, by decide, ?_, ?_⟩
  · intro firing _ dsr _
    constructor
    · rw [show (badFirstPacket.blocks 1).rotation = 0 from rfl, azimuth_corrected_zero_diff,
        defaultConfig_eq]
      decide
    · rw [defaultConfig_eq]
      norm_num [pointInRange, distance, tmp_uint, badFirstPacket, plainDecoder, plainCorrection,
        DISTANCE_RESOLUTION]
  · have h := (unpack_vlp16_stop (plainDecoder 16 defaultConfig) badFirstPacket 0
      (by decide) (by decide)).1
    rw [h]
    rfl

/-- C1, as amended: in the 16-beam decoder a block `i` whose marker is not
`UPPER_BANK` ends the decoding of the packet.  The decoder returns the state
reached after the blocks before `i`, so every emitted point comes from a block
before `i`: neither block `i` nor any later block contributes a point, whatever
the markers and returns of the later blocks. -/
theorem C1_marker_mismatch_ends_decoding (rd : RawData) (pkt : VelodynePacket) (i : Nat)
    (hi : i < BLOCKS_PER_PACKET) (hbad : (pkt.blocks i).header ≠ UPPER_BANK) :
    unpack_vlp16 rd pkt =
        ((vlp16_blocks rd pkt i 0 vlp16_init).time, (vlp16_blocks rd pkt i 0 vlp16_init).data) ∧
      ∀ e ∈ (unpack_vlp16 rd pkt).2, e.block < i :=
  unpack_vlp16_stop rd pkt i hi hbad

/-- C1, witness: the amended statement at `badSecondPacket`, whose block 1 has
a wrong marker: the 32 points of block 0 are emitted and nothing else. -/
theorem C1_marker_mismatch_ends_decoding_witness :
    (badSecondPacket.blocks 1).header ≠ UPPER_BANK ∧
    (unpack_vlp16 (plainDecoder 16 defaultConfig) badSecondPacket).2.length = 32 ∧
    ∀ e ∈ (unpack_vlp16 (plainDecoder 16 defaultConfig) badSecondPacket).2, e.block < 1 :=
  ⟨by decide, unpack_vlp16_badSecondPacket,
    (C1_marker_mismatch_ends_decoding (plainDecoder 16 defaultConfig) badSecondPacket 1
      (by decide) (by decide)).2⟩

/-- C2: in the 16-beam decoder, for every packet and every block index `i`, if
the marker of block `i` differs from `UPPER_BANK` then no emitted point comes
from block `i`. -/
theorem C2_mismatching_block_emits_nothing (rd : RawData) (pkt : VelodynePacket) (i : Nat)
    (hbad : (pkt.blocks i).header ≠ UPPER_BANK) :
    ∀ e ∈ (unpack_vlp16 rd pkt).2, e.block ≠ i := by
  intro e he
  by_cases hi : i < BLOCKS_PER_PACKET
  · exact Nat.ne_of_lt ((unpack_vlp16_stop rd pkt i hi hbad).2 e he)
  · obtain ⟨blk, ad, hblk, _, _, _, _, h⟩ := unpack_vlp16_data_mem rd pkt e he
    rw [h.1]
    simp only
    omega

/-- C2, witness: the statement at `badSecondPacket`, block 1: the decoder emits
32 points, none of them from block 1. -/
theorem C2_mismatching_block_emits_nothing_witness :
    (badSecondPacket.blocks 1).header ≠ UPPER_BANK ∧
    (unpack_vlp16 (plainDecoder 16 defaultConfig) badSecondPacket).2.length = 32 ∧
    ∀ e ∈ (unpack_vlp16 (plainDecoder 16 defaultConfig) badSecondPacket).2, e.block ≠ 1 :=
  ⟨by decide, unpack_vlp16_badSecondPacket,
    C2_mismatching_block_emits_nothing (plainDecoder 16 defaultConfig) badSecondPacket 1
      (by decide)⟩

/-! ## C3: the sink sequence of the generic decoder -/

theorem unpack_scan_eq (rd : RawData) (pkt : VelodynePacket) (i : Nat) (data : List Emitted)
    (j : Nat) :
    unpack_scan rd pkt i data j =
      data ++ (if genericPasses rd pkt i j then [genericEmitted rd pkt i j] else []) := by
  unfold unpack_scan genericPasses genericEmitted
  simp only
  by_cases h1 : angleInView rd.config_.min_angle rd.config_.max_angle (pkt.blocks i).rotation = true
  · by_cases h2 : pointInRange rd.config_
        (distance (rd.calibration_.laser_corrections (laser_number (pkt.blocks i).header j))
          (tmp_uint (pkt.blocks i) (j * RAW_SCAN_SIZE))) = true
    · simp [h1, h2]
    · simp [h1, h2]
  · simp [h1]

theorem foldl_unpack_scan (rd : RawData) (pkt : VelodynePacket) (i : Nat) (l : List Nat) :
    ∀ data : List Emitted, l.foldl (unpack_scan rd pkt i) data =
      data ++ (l.filter (genericPasses rd pkt i)).map (genericEmitted rd pkt i) := by
  induction l with
  | nil => intro data; simp
  | cons j l ih =>
    intro data
    rw [List.foldl_cons, ih, unpack_scan_eq]
    by_cases h : genericPasses rd pkt i j = true
    · simp [h, List.filter_cons]
    · simp [h, List.filter_cons]

theorem foldl_unpack_block (rd : RawData) (pkt : VelodynePacket) (l : List Nat) :
    ∀ data : List Emitted, l.foldl (unpack_block rd pkt) data =
      data ++ l.flatMap fun i =>
        ((List.range SCANS_PER_BLOCK).filter (genericPasses rd pkt i)).map
          (genericEmitted rd pkt i) := by
  induction l with
  | nil => intro data; simp
  | cons i l ih =>
    intro data
    rw [List.foldl_cons, ih]
    simp [unpack_block, foldl_unpack_scan, List.flatMap_cons]

/-- The base distance of the decoder is the distance of the specification. -/
theorem distance_eq_specDistance (rd : RawData) (pkt : VelodynePacket) (i j : Nat)
    (hj : j < SCANS_PER_BLOCK) :
    distance (rd.calibration_.laser_corrections (laser_number (pkt.blocks i).header j))
        (tmp_uint (pkt.blocks i) (j * RAW_SCAN_SIZE)) = specDistance rd pkt i j := by
  have hb : j + bank_origin (pkt.blocks i).header < 256 := by
    unfold SCANS_PER_BLOCK at hj
    unfold bank_origin
    split_ifs <;> omega
  unfold distance specDistance laser_number tmp_uint RAW_SCAN_SIZE DISTANCE_RESOLUTION
  rw [Nat.mod_eq_of_lt hb, Nat.mul_comm j 3]
  push_cast
  norm_num

theorem angleInView_iff (min_angle max_angle a : Int) :
    angleInView min_angle max_angle a = true ↔ specContains min_angle max_angle a := by
  unfold angleInView specContains
  simp only [Bool.or_eq_true, Bool.and_eq_true, decide_eq_true_eq, ge_iff_le, gt_iff_lt]
  constructor
  · rintro (⟨⟨h1, h2⟩, h3⟩ | ⟨h1, h2⟩)
    · exact Or.inl ⟨h3, h1, h2⟩
    · exact Or.inr ⟨h1, h2⟩
  · rintro (⟨h3, h1, h2⟩ | ⟨h1, h2⟩)
    · exact Or.inl ⟨⟨h1, h2⟩, h3⟩
    · exact Or.inr ⟨h1, h2⟩

theorem genericPasses_iff (rd : RawData) (pkt : VelodynePacket) (i j : Nat)
    (hj : j < SCANS_PER_BLOCK) :
    genericPasses rd pkt i j = true ↔ specEmits rd pkt (i, j) := by
  unfold genericPasses specEmits
  rw [distance_eq_specDistance rd pkt i j hj]
  simp only [Bool.and_eq_true, angleInView_iff, pointInRange, decide_eq_true_eq, ge_iff_le]

theorem unpack_spec_eq (rd : RawData) (pkt : VelodynePacket) :
    unpack_spec rd pkt = (List.range BLOCKS_PER_PACKET).flatMap fun i =>
      ((List.range SCANS_PER_BLOCK).filter (genericPasses rd pkt i)).map
        (genericEmitted rd pkt i) := by
  unfold unpack_spec specReturns BLOCKS_PER_PACKET
  rw [List.filter_flatMap, List.map_flatMap]
  congr 1
  funext i
  rw [List.filter_map, List.map_map]
  have hf : List.filter ((fun ij => decide (specEmits rd pkt ij)) ∘ fun j => (i, j)) (List.range 32)
      = List.filter (genericPasses rd pkt i) (List.range SCANS_PER_BLOCK) := by
    apply List.filter_congr
    intro j hj
    have hj32 : j < SCANS_PER_BLOCK := List.mem_range.mp hj
    by_cases h : genericPasses rd pkt i j = true
    · simp [h, (genericPasses_iff rd pkt i j hj32).mp h]
    · have h2 : ¬ specEmits rd pkt (i, j) := fun hs => h ((genericPasses_iff rd pkt i j hj32).mpr hs)
      simp [h, h2]
  rw [hf]
  rfl

theorem unpack_generic_eq_spec (rd : RawData) (pkt : VelodynePacket) :
    (unpack_generic rd pkt).2 = unpack_spec rd pkt := by
  unfold unpack_generic
  rw [foldl_unpack_block, unpack_spec_eq]
  simp

theorem mem_specReturns (ij : Nat × Nat) :
    ij ∈ specReturns ↔ ij.1 < 12 ∧ ij.2 < 32 := by
  unfold specReturns
  simp only [List.mem_flatMap, List.mem_range, List.mem_map]
  constructor
  · rintro ⟨i, hi, j, hj, rfl⟩
    exact ⟨hi, hj⟩
  · rintro ⟨hi, hj⟩
    exact ⟨ij.1, hi, ij.2, hj, rfl⟩

theorem mem_unpack_spec (rd : RawData) (pkt : VelodynePacket) (e : Emitted) :
    e ∈ unpack_spec rd pkt ↔
      ∃ i j, i < 12 ∧ j < 32 ∧ specEmits rd pkt (i, j) ∧ e = genericEmitted rd pkt i j := by
  unfold unpack_spec
  simp only [List.mem_map, List.mem_filter, mem_specReturns, decide_eq_true_eq]
  constructor
  · rintro ⟨⟨i, j⟩, ⟨⟨hi, hj⟩, hs⟩, rfl⟩
    exact ⟨i, j, hi, hj, hs, rfl⟩
  · rintro ⟨i, j, hi, hj, hs, rfl⟩
    exact ⟨(i, j), ⟨⟨hi, hj⟩, hs⟩, rfl⟩

theorem foldl_fixed {α β : Type} (f : β → α → β) (l : List α) (s : β)
    (h : ∀ x ∈ l, f s x = s) : l.foldl f s = s := by
  induction l with
  | nil => rfl
  | cons x l ih =>
    rw [List.foldl_cons, h x (List.mem_cons_self _ _)]
    exact ih (fun y hy => h y (List.mem_cons_of_mem _ hy))

/-- A block none of whose returns has an azimuth in the view leaves `time`,
`last_azimuth_diff` and the sink as they are. -/
theorem vlp16_block_out_of_view (rd : RawData) (pkt : VelodynePacket) (block : Nat) (ad : ℚ)
    (s : Vlp16State)
    (h : ∀ firing dsr, angleInView rd.config_.min_angle rd.config_.max_angle
      (azimuth_corrected ((pkt.blocks block).rotation : ℚ) ad firing dsr) = false) :
    vlp16_block rd pkt block ad s = s := by
  unfold vlp16_block
  apply foldl_fixed
  intro firing _
  unfold vlp16_firing
  apply foldl_fixed
  intro dsr _
  unfold vlp16_scan
  simp [h firing dsr]

/-- The generic decoder returns the receipt time of the packet. -/
theorem unpack_generic_time (rd : RawData) (pkt : VelodynePacket) :
    (unpack_generic rd pkt).1 = pkt.stamp := rfl

/-- On `steadyPacket`, viewed through `narrowConfig`, the loop of `unpack_vlp16`
never changes its state. -/
theorem vlp16_blocks_steady_narrow (n : Nat) :
    ∀ (b : Nat) (s : Vlp16State), s.last_azimuth_diff = 0 →
      vlp16_blocks (plainDecoder 16 narrowConfig) steadyPacket n b s = s := by
  have hview : ∀ (b firing dsr : Nat),
      angleInView (plainDecoder 16 narrowConfig).config_.min_angle
        (plainDecoder 16 narrowConfig).config_.max_angle
        (azimuth_corrected ((steadyPacket.blocks b).rotation : ℚ) 0 firing dsr) = false := by
    intro b firing dsr
    rw [show (steadyPacket.blocks b).rotation = 0 from rfl, azimuth_corrected_zero_diff]
    show angleInView narrowConfig.min_angle narrowConfig.max_angle _ = false
    rw [narrowConfig_angles.1, narrowConfig_angles.2]
    decide
  have hraw : ∀ b, raw_azimuth_diff steadyPacket b = 0 := by
    intro b
    simp [raw_azimuth_diff, steadyPacket]
  have hwrap : ((wrapped_azimuth_diff 0 : Int) : ℚ) = 0 := by
    have : wrapped_azimuth_diff 0 = 0 := by decide
    rw [this]
    rfl
  induction n with
  | zero => intro b s _; rfl
  | succ n ih =>
    intro b s hs
    have hs1 : ({ s with last_azimuth_diff := 0 } : Vlp16State) = s := by
      cases s
      simp only at hs
      subst hs
      rfl
    rw [vlp16_blocks]
    have hh : ¬ (UPPER_BANK ≠ (steadyPacket.blocks b).header) := by
      simp [steadyPacket]
    rw [if_neg hh, hraw b, hwrap, if_neg (lt_irrefl 0), hs, hs1]
    rw [vlp16_block_out_of_view _ _ _ _ _ (hview b)]
    split_ifs <;> exact ih (b + 1) s hs

/-- C4, failing input: a 16-beam decoder configured by
`setParameters(0.3, 150.0, -1.0, 1.0)` (view `[2865, 8594]`) receives
`steadyPacket`, a packet with receipt time 5 whose twelve blocks carry the
marker `UPPER_BANK` and rotation 0.  All returns are filtered out by the
angular test and `unpack` returns 0, not 5.  The same happens with the default
configuration on `badFirstPacket`, where the first marker is wrong.  The generic
path of `unpack` returns the receipt time for every packet. -/
theorem C4_unpack_vlp16_returns_zero :
    steadyPacket.stamp = 5 ∧
    (unpack (plainDecoder 16 narrowConfig) steadyPacket).1 = 0 ∧
    badFirstPacket.stamp = 5 ∧
    (unpack (plainDecoder 16 defaultConfig) badFirstPacket).1 = 0 ∧
    (∀ (rd : RawData) (pkt : VelodynePacket), rd.calibration_.num_lasers ≠ 16 →
      (unpack rd pkt).1 = pkt.stamp) := by
  refine ⟨rfl, ?_, rfl, ?_, ?_⟩
  · have h16 : (plainDecoder 16 narrowConfig).calibration_.num_lasers = 16 := rfl
    unfold unpack
    rw [if_pos h16]
    unfold unpack_vlp16
    rw [vlp16_blocks_steady_narrow _ _ _ rfl]
    rfl
  · have h16 : (plainDecoder 16 defaultConfig).calibration_.num_lasers = 16 := rfl
    unfold unpack
    rw [if_pos h16]
    rw [(unpack_vlp16_stop (plainDecoder 16 defaultConfig) badFirstPacket 0
      (by decide) (by decide)).1]
    rfl
  · intro rd pkt h16
    unfold unpack
    rw [if_neg h16]
    rfl

/-! ## C5: the angular containment test -/

/-- C5: the angular containment test used by both decoders accepts azimuth `a`
for bounds `(min, max)` iff (`min < max` and `min ≤ a ≤ max`) or (`min > max` and
(`a ≤ max` or `a ≥ min`)), and every point either decoder emits has an azimuth
that passes it.  With `min = 0`, `max = 36000` every rotation in `[0, 35999]` is
contained; with `min = 35000`, `max = 1000` the rotations 500 and 35500 are
contained and 20000 is not. -/
theorem C5_angular_containment :
    (∀ min_angle max_angle a : Int, angleInView min_angle max_angle a = true ↔
      ((min_angle < max_angle ∧ min_angle ≤ a ∧ a ≤ max_angle) ∨
       (min_angle > max_angle ∧ (a ≤ max_angle ∨ a ≥ min_angle)))) ∧
    (∀ (rd : RawData) (pkt : VelodynePacket), ∀ e ∈ (unpack rd pkt).2,
      angleInView rd.config_.min_angle rd.config_.max_angle e.pt.azimuth = true) ∧
    (∀ r : Nat, r ≤ 35999 → angleInView 0 36000 r = true) ∧
    angleInView 35000 1000 500 = true ∧
    angleInView 35000 1000 35500 = true ∧
    angleInView 35000 1000 20000 = false := by
  refine ⟨fun min_angle max_angle a => angleInView_iff min_angle max_angle a, ?_, ?_,
    by decide, by decide, by decide⟩
  · intro rd pkt e he
    unfold unpack at he
    split_ifs at he with h16
    · obtain ⟨blk, ad, _, firing, _, dsr, _, h⟩ := unpack_vlp16_data_mem rd pkt e he
      rw [h.1]
      exact h.2.1
    · rw [unpack_generic_eq_spec] at he
      obtain ⟨i, j, _, _, hs, rfl⟩ := (mem_unpack_spec rd pkt e).mp he
      exact (angleInView_iff _ _ _).mpr hs.1
  · intro r hr
    rw [angleInView_iff]
    exact Or.inl ⟨by decide, by omega, by omega⟩

/-! ## C6: degenerate view -/

/-- C6: `setParameters` with `view_width = 0` stores the angular bounds
`(min_angle, max_angle) = (0, 36000)` for every `view_direction` (in particular
for `view_direction = 0`); more generally, whenever the two converted bounds
are equal they are replaced by `(0, 36000)`. -/
theorem C6_zero_width_full_circle :
    (∀ min_range max_range view_direction : ℚ,
      (setParameters min_range max_range view_direction 0).min_angle = 0 ∧
      (setParameters min_range max_range view_direction 0).max_angle = 36000) ∧
    ((setParameters (3 / 10) 150 0 0).min_angle = 0 ∧
      (setParameters (3 / 10) 150 0 0).max_angle = 36000) ∧
    (∀ min_range max_range view_direction view_width : ℚ,
      toHardwareAngle (positiveModulo (view_direction + view_width / 2)) =
        toHardwareAngle (positiveModulo (view_direction - view_width / 2)) →
      (setParameters min_range max_range view_direction view_width).min_angle = 0 ∧
      (setParameters min_range max_range view_direction view_width).max_angle = 36000) := by
  refine ⟨?_, ?_, ?_⟩
  · intro min_range max_range view_direction
    rw [setParameters_zero_width]
    exact ⟨rfl, rfl⟩
  · rw [setParameters_zero_width]
    exact ⟨rfl, rfl⟩
  · intro min_range max_range view_direction view_width h
    simp [setParameters, h]

/-! ## C7: the wrapped azimuth difference -/

/-- C7: in the 16-beam decoder, for consecutive blocks `N`, `N + 1` whose
rotations lie in `[0, 35999]` with `rotation (N + 1) < rotation N`, the raw
difference is negative and the value computed for block `N` by the formula
`(36000 + (rotation (N + 1) - rotation N)) % 36000` is the wrapped difference
`36000 + rotation (N + 1) - rotation N`, which lies in `[0, 35999]`. -/
theorem C7_wrapped_difference (pkt : VelodynePacket) (block : Nat)
    (h1 : (pkt.blocks block).rotation ≤ 35999)
    (h2 : (pkt.blocks (block + 1)).rotation < (pkt.blocks block).rotation) :
    raw_azimuth_diff pkt block < 0 ∧
    0 ≤ wrapped_azimuth_diff (raw_azimuth_diff pkt block) ∧
    wrapped_azimuth_diff (raw_azimuth_diff pkt block) ≤ 35999 ∧
    wrapped_azimuth_diff (raw_azimuth_diff pkt block) =
      36000 + ((pkt.blocks (block + 1)).rotation : Int) - ((pkt.blocks block).rotation : Int) := by
  have hraw : raw_azimuth_diff pkt block =
      ((pkt.blocks (block + 1)).rotation : Int) - ((pkt.blocks block).rotation : Int) := rfl
  have hneg : raw_azimuth_diff pkt block < 0 := by rw [hraw]; omega
  have hlow : -35999 ≤ raw_azimuth_diff pkt block := by rw [hraw]; omega
  have hval : wrapped_azimuth_diff (raw_azimuth_diff pkt block) =
      36000 + raw_azimuth_diff pkt block := by
    unfold wrapped_azimuth_diff
    rw [Int.tmod_eq_emod (by omega) (by decide)]
    exact Int.emod_eq_of_lt (by omega) (by omega)
  refine ⟨hneg, ?_, ?_, ?_⟩
  · rw [hval]; omega
  · rw [hval]; omega
  · rw [hval, hraw]; omega

/-- C7, witness: rotation 35900 followed by rotation 100 gives the difference
200. -/
theorem C7_wrapped_difference_witness :
    (wrapPacket.blocks 0).rotation = 35900 ∧ (wrapPacket.blocks 1).rotation = 100 ∧
    wrapped_azimuth_diff (raw_azimuth_diff wrapPacket 0) = 200 :=
  ⟨rfl, rfl,
    (C7_wrapped_difference wrapPacket 0 (by decide) (by decide)).2.2.2.trans (by decide)⟩

/-! ## C8: two-point correction switched off -/

/-- C8: in both decoders, for a return whose beam calibration has
`two_pt_correction_available = false`, the two per-axis distance corrections are
zero, so `distance_x` and `distance_y` both equal the base corrected distance
`count * 0.002 + dist_correction`, and the coordinates of the point are computed
from that distance. -/
theorem C8_two_point_correction_off (c : LaserCorrection) (cosr sinr : ℚ) (count : Nat)
    (h : c.two_pt_correction_available = false) :
    distance_corr_x c (xx c cosr sinr (distance c count)) = 0 ∧
    distance_corr_y c (yy c cosr sinr (distance c count)) = 0 ∧
    distance_x c cosr sinr (distance c count) = (count : ℚ) * 0.002 + c.dist_correction ∧
    distance_y c cosr sinr (distance c count) = (count : ℚ) * 0.002 + c.dist_correction ∧
    x_coord c cosr sinr (distance c count) =
      xy_distance c (distance c count) * cosr + c.horiz_offset_correction * sinr ∧
    y_coord c cosr sinr (distance c count) =
      -(xy_distance c (distance c count) * sinr - c.horiz_offset_correction * cosr) ∧
    z_coord c cosr sinr (distance c count) =
      distance c count * c.sin_vert_correction +
        c.vert_offset_correction * c.cos_vert_correction := by
  have hx : ∀ v, distance_corr_x c v = 0 := by
    intro v; unfold distance_corr_x; rw [h]; rfl
  have hy : ∀ v, distance_corr_y c v = 0 := by
    intro v; unfold distance_corr_y; rw [h]; rfl
  have hd : distance c count = (count : ℚ) * 0.002 + c.dist_correction := by
    unfold distance DISTANCE_RESOLUTION
    norm_num
  have hdx : distance_x c cosr sinr (distance c count) = distance c count := by
    unfold distance_x; rw [hx]; ring
  have hdy : distance_y c cosr sinr (distance c count) = distance c count := by
    unfold distance_y; rw [hy]; ring
  refine ⟨hx _, hy _, by rw [hdx, hd], by rw [hdy, hd], ?_, ?_, ?_⟩
  · unfold x_coord y_val; rw [hdy]
  · unfold y_coord x_val; rw [hdx]
  · unfold z_coord z_val; rw [hdy]

/-- C8, witness: the statement for `plainCorrection` and the count 500. -/
theorem C8_two_point_correction_off_witness :
    plainCorrection.two_pt_correction_available = false ∧
    distance_x plainCorrection 1 0 (distance plainCorrection 500) =
      ((500 : Nat) : ℚ) * 0.002 + plainCorrection.dist_correction ∧
    distance_y plainCorrection 1 0 (distance plainCorrection 500) =
      ((500 : Nat) : ℚ) * 0.002 + plainCorrection.dist_correction :=
  have h := C8_two_point_correction_off plainCorrection 1 0 500 rfl
  ⟨rfl, h.2.2.1, h.2.2.2.1⟩

/-! ## C9: the reflectivity clamp of the generic decoder -/

/-- The two assignments of lines 298–299 in closed form. -/
theorem clamp_intensity_cases (c : LaserCorrection) (v : ℚ) :
    (v > c.max_intensity → clamp_intensity c v = c.max_intensity) ∧
    (v < c.min_intensity → c.min_intensity ≤ c.max_intensity →
      clamp_intensity c v = c.min_intensity) ∧
    (v < c.min_intensity → c.min_intensity > c.max_intensity →
      clamp_intensity c v = c.max_intensity) ∧
    (c.min_intensity ≤ v → v ≤ c.max_intensity → clamp_intensity c v = v) := by
  unfold clamp_intensity
  refine ⟨?_, ?_, ?_, ?_⟩
  · intro h
    by_cases h1 : v < c.min_intensity
    · have : c.min_intensity > c.max_intensity := lt_trans h h1
      simp [h1, this]
    · simp [h1, h]
  · intro h1 h2
    simp [h1, not_lt.mpr h2]
  · intro h1 h2
    simp [h1, h2]
  · intro h1 h2
    simp [not_lt.mpr h1, not_lt.mpr h2]

/-- C9, counterexample: with the default configuration, return 0 of block 0 of
`steadyPacket` is emitted by the generic decoder; its beam has
`min_intensity = 10 > max_intensity = 5`, the computed intensity 1 is below
`min_intensity`, and the reported reflectivity is 5, not `min_intensity`. -/
theorem C9_low_clamp_fails_for_swapped_bounds :
    genericEmitted (swappedDecoder defaultConfig) steadyPacket 0 0 ∈
      (unpack (swappedDecoder defaultConfig) steadyPacket).2 ∧
    computed_intensity swappedBounds ((steadyPacket.blocks 0).data 2)
      (tmp_uint (steadyPacket.blocks 0) 0) = 1 ∧
    swappedBounds.min_intensity = 10 ∧
    (genericEmitted (swappedDecoder defaultConfig) steadyPacket 0 0).pt.intensity = 5 ∧
    (genericEmitted (swappedDecoder defaultConfig) steadyPacket 0 0).pt.intensity ≠
      swappedBounds.min_intensity := by
  have hc : computed_intensity swappedBounds ((steadyPacket.blocks 0).data 2)
      (tmp_uint (steadyPacket.blocks 0) 0) = 1 := by
    norm_num [computed_intensity, swappedBounds, plainCorrection, steadyPacket]
  have hi : (genericEmitted (swappedDecoder defaultConfig) steadyPacket 0 0).pt.intensity = 5 := by
    show clamp_intensity swappedBounds (computed_intensity swappedBounds
      ((steadyPacket.blocks 0).data 2) (tmp_uint (steadyPacket.blocks 0) 0)) = 5
    rw [hc]
    norm_num [clamp_intensity, swappedBounds, plainCorrection]
  refine ⟨?_, hc, rfl, hi, ?_⟩
  · have h64 : (swappedDecoder defaultConfig).calibration_.num_lasers ≠ 16 := by decide
    unfold unpack
    rw [if_neg h64, unpack_generic_eq_spec, mem_unpack_spec]
    refine ⟨0, 0, by decide, by decide, ?_, rfl⟩
    unfold specEmits specDistance
    show specContains defaultConfig.min_angle defaultConfig.max_angle _ ∧
      defaultConfig.min_range ≤ _ ∧ _ ≤ defaultConfig.max_range
    rw [defaultConfig_eq]
    refine ⟨by decide, ?_, ?_⟩ <;>
      norm_num [steadyPacket, swappedDecoder, swappedBounds, plainCorrection]
  · rw [hi]
    norm_num [swappedBounds]

/-- C9, as amended: in the generic decoder the reflectivity reported for a point
is the computed intensity
`raw_byte + focal_slope * |focal_offset - 256 * (1 - count / 65535)^2|` clamped
by the two assignments of lines 298–299: a computed intensity above
`max_intensity` is reported as exactly `max_intensity`; a computed intensity
below `min_intensity` is reported as exactly `min_intensity` when
`min_intensity ≤ max_intensity` (and as `max_intensity` when the bounds are in the
other order); otherwise the computed value is reported. -/
theorem C9_reflectivity_clamp (rd : RawData) (pkt : VelodynePacket) (i j : Nat)
    (c : LaserCorrection) (v : ℚ)
    (hc : c = rd.calibration_.laser_corrections (laser_number (pkt.blocks i).header j))
    (hv : v = computed_intensity c ((pkt.blocks i).data (j * RAW_SCAN_SIZE + 2))
      (tmp_uint (pkt.blocks i) (j * RAW_SCAN_SIZE))) :
    v = (((pkt.blocks i).data (j * RAW_SCAN_SIZE + 2) : Nat) : ℚ) + c.focal_slope *
      |256 * (1 - c.focal_distance / 13100) ^ 2 -
        256 * (1 - ((tmp_uint (pkt.blocks i) (j * RAW_SCAN_SIZE) : Nat) : ℚ) / 65535) ^ 2| ∧
    (v > c.max_intensity → (genericPoint rd pkt i j).intensity = c.max_intensity) ∧
    (v < c.min_intensity → c.min_intensity ≤ c.max_intensity →
      (genericPoint rd pkt i j).intensity = c.min_intensity) ∧
    (v < c.min_intensity → c.min_intensity > c.max_intensity →
      (genericPoint rd pkt i j).intensity = c.max_intensity) ∧
    (c.min_intensity ≤ v → v ≤ c.max_intensity → (genericPoint rd pkt i j).intensity = v) := by
  have hi : (genericPoint rd pkt i j).intensity = clamp_intensity c v := by
    rw [hv, hc]
    rfl
  rw [hi]
  refine ⟨?_, clamp_intensity_cases c v⟩
  rw [hv]
  unfold computed_intensity focal_offset
  ring_nf

/-- C9, witness: the amended statement at return 0 of block 0 of
`steadyPacket` for a decoder calibrated by `plainCorrection`: the computed
intensity 1 lies within `[0, 255]` and is reported. -/
theorem C9_reflectivity_clamp_witness :
    (genericPoint (plainDecoder 64 defaultConfig) steadyPacket 0 0).intensity = 1 :=
  have hv : (1 : ℚ) = computed_intensity plainCorrection
      ((steadyPacket.blocks 0).data (0 * RAW_SCAN_SIZE + 2))
      (tmp_uint (steadyPacket.blocks 0) (0 * RAW_SCAN_SIZE)) := by
    norm_num [computed_intensity, plainCorrection, steadyPacket]
  (C9_reflectivity_clamp (plainDecoder 64 defaultConfig) steadyPacket 0 0 plainCorrection 1
    rfl hv).2.2.2.2 (by norm_num [plainCorrection]) (by norm_num [plainCorrection])

/-! ## C10: bank origin of the generic decoder -/

/-- C10, counterexample: the marker `0x1234` is neither `UPPER_BANK` nor
`LOWER_BANK`; its bank origin is 0, not 32, and the hardware beam number of
return 5 is 5, not 37. -/
theorem C10_unknown_marker_is_upper_bank :
    0x1234 ≠ UPPER_BANK ∧ 0x1234 ≠ LOWER_BANK ∧
    bank_origin 0x1234 = 0 ∧ bank_origin 0x1234 ≠ 32 ∧
    laser_number 0x1234 5 = 5 ∧ laser_number 0x1234 5 ≠ 5 + 32 := by
  decide

/-- C10, as amended: in the generic decoder the bank origin of a block is 32
when its marker equals the lower-bank marker and 0 otherwise: any marker not
matching `LOWER_BANK`, including `UPPER_BANK` and values that are neither
recognized marker, is treated as upper bank (hardware beam number = triple
index), and the emitted point carries the ring of that beam. -/
theorem C10_bank_origin (rd : RawData) (pkt : VelodynePacket) (i j : Nat)
    (hj : j < SCANS_PER_BLOCK) :
    ((pkt.blocks i).header = LOWER_BANK → bank_origin (pkt.blocks i).header = 32 ∧
      laser_number (pkt.blocks i).header j = j + 32 ∧
      (genericPoint rd pkt i j).ring = (rd.calibration_.laser_corrections (j + 32)).laser_ring) ∧
    ((pkt.blocks i).header ≠ LOWER_BANK → bank_origin (pkt.blocks i).header = 0 ∧
      laser_number (pkt.blocks i).header j = j ∧
      (genericPoint rd pkt i j).ring = (rd.calibration_.laser_corrections j).laser_ring) ∧
    bank_origin UPPER_BANK = 0 := by
  unfold SCANS_PER_BLOCK at hj
  refine ⟨?_, ?_, by decide⟩
  · intro h
    have hb : bank_origin (pkt.blocks i).header = 32 := by unfold bank_origin; rw [if_pos h]
    have hl : laser_number (pkt.blocks i).header j = j + 32 := by
      unfold laser_number; rw [hb]; exact Nat.mod_eq_of_lt (by omega)
    refine ⟨hb, hl, ?_⟩
    show (rd.calibration_.laser_corrections (laser_number (pkt.blocks i).header j)).laser_ring = _
    rw [hl]
  · intro h
    have hb : bank_origin (pkt.blocks i).header = 0 := by unfold bank_origin; rw [if_neg h]
    have hl : laser_number (pkt.blocks i).header j = j := by
      unfold laser_number; rw [hb]; exact Nat.mod_eq_of_lt (by omega)
    refine ⟨hb, hl, ?_⟩
    show (rd.calibration_.laser_corrections (laser_number (pkt.blocks i).header j)).laser_ring = _
    rw [hl]

/-- C10, witness: the amended statement at return 5 of block 0 of
`badFirstPacket`, whose marker 0 is no recognized marker. -/
theorem C10_bank_origin_witness :
    (badFirstPacket.blocks 0).header ≠ LOWER_BANK ∧
    bank_origin (badFirstPacket.blocks 0).header = 0 ∧
    laser_number (badFirstPacket.blocks 0).header 5 = 5 :=
  have h := (C10_bank_origin (plainDecoder 64 defaultConfig) badFirstPacket 0 5
    (by decide)).2.1 (by decide)
  ⟨by decide, h.1, h.2.1⟩

/-! ## The loop over the blocks, one iteration at a time -/

theorem foldl_invariant {α β : Type} (P : β → Prop) (f : β → α → β) (l : List α)
    (h : ∀ s x, P s → P (f s x)) : ∀ s, P s → P (l.foldl f s) := by
  induction l with
  | nil => intro s hs; exact hs
  | cons x l ih => intro s hs; exact ih _ (h s x hs)

/-- Decoding the returns of a block does not touch `last_azimuth_diff`. -/
theorem vlp16_block_last (rd : RawData) (pkt : VelodynePacket) (block : Nat) (ad : ℚ)
    (s : Vlp16State) :
    (vlp16_block rd pkt block ad s).last_azimuth_diff = s.last_azimuth_diff := by
  unfold vlp16_block
  apply foldl_invariant (fun t : Vlp16State => t.last_azimuth_diff = s.last_azimuth_diff)
  · intro t firing ht
    unfold vlp16_firing
    apply foldl_invariant (fun t : Vlp16State => t.last_azimuth_diff = s.last_azimuth_diff)
    · intro u dsr hu
      unfold vlp16_scan
      simp only
      split_ifs <;> exact hu
    · exact ht
  · rfl

/-- One iteration of the loop over the blocks at a block with the right marker:
the block is decoded with the difference selected by lines 346–376, which is
also stored in `last_azimuth_diff`, or it is skipped. -/
theorem vlp16_blocks_succ (rd : RawData) (pkt : VelodynePacket) (n b : Nat) (s : Vlp16State)
    (hh : (pkt.blocks b).header = UPPER_BANK) :
    vlp16_blocks rd pkt (n + 1) b s =
      match select_azimuth_diff pkt b s.last_azimuth_diff with
      | some ad => vlp16_blocks rd pkt n (b + 1)
          (vlp16_block rd pkt b ad { s with last_azimuth_diff := ad })
      | none => vlp16_blocks rd pkt n (b + 1) s := by
  rw [vlp16_blocks, if_neg (by simp [hh])]
  unfold select_azimuth_diff
  split_ifs <;> rfl

theorem vlp16_blocks_succ_some (rd : RawData) (pkt : VelodynePacket) (n b : Nat)
    (s : Vlp16State) (ad : ℚ) (hh : (pkt.blocks b).header = UPPER_BANK)
    (hsel : select_azimuth_diff pkt b s.last_azimuth_diff = some ad) :
    vlp16_blocks rd pkt (n + 1) b s =
      vlp16_blocks rd pkt n (b + 1)
        (vlp16_block rd pkt b ad { s with last_azimuth_diff := ad }) := by
  rw [vlp16_blocks_succ rd pkt n b s hh, hsel]

theorem vlp16_blocks_succ_none (rd : RawData) (pkt : VelodynePacket) (n b : Nat)
    (s : Vlp16State) (hh : (pkt.blocks b).header = UPPER_BANK)
    (hsel : select_azimuth_diff pkt b s.last_azimuth_diff = none) :
    vlp16_blocks rd pkt (n + 1) b s = vlp16_blocks rd pkt n (b + 1) s := by
  rw [vlp16_blocks_succ rd pkt n b s hh, hsel]

/-- Iterations over blocks with the right marker compose. -/
theorem vlp16_blocks_add (rd : RawData) (pkt : VelodynePacket) (m : Nat) :
    ∀ (n b : Nat) (s : Vlp16State),
      (∀ i, b ≤ i → i < b + m → (pkt.blocks i).header = UPPER_BANK) →
      vlp16_blocks rd pkt (m + n) b s =
        vlp16_blocks rd pkt n (b + m) (vlp16_blocks rd pkt m b s) := by
  induction m with
  | zero => intro n b s _; simp [vlp16_blocks]
  | succ m ih =>
    intro n b s hh
    have hb : (pkt.blocks b).header = UPPER_BANK := hh b (le_refl b) (by omega)
    have hrest : ∀ i, b + 1 ≤ i → i < b + 1 + m → (pkt.blocks i).header = UPPER_BANK :=
      fun i h1 h2 => hh i (by omega) (by omega)
    have e1 : m + 1 + n = (m + n) + 1 := by omega
    have e2 : b + (m + 1) = b + 1 + m := by omega
    rw [e1, e2, vlp16_blocks_succ rd pkt (m + n) b s hb, vlp16_blocks_succ rd pkt m b s hb]
    cases select_azimuth_diff pkt b s.last_azimuth_diff with
    | none => exact ih n (b + 1) s hrest
    | some ad => exact ih n (b + 1) _ hrest

/-- The difference selected for a block lies in `[0, 36000)` when
`last_azimuth_diff` does. -/
theorem select_azimuth_diff_range (pkt : VelodynePacket) (b : Nat) (last ad : ℚ)
    (h0 : 0 ≤ last) (h1 : last < 36000) (h : select_azimuth_diff pkt b last = some ad) :
    0 ≤ ad ∧ ad < 36000 := by
  unfold select_azimuth_diff at h
  split_ifs at h with hb hraw hl
  · cases h; exact ⟨h0, h1⟩
  · have hnn : 0 ≤ raw_azimuth_diff pkt b := not_lt.mp hraw
    have hmod : wrapped_azimuth_diff (raw_azimuth_diff pkt b) =
        (36000 + raw_azimuth_diff pkt b) % 36000 := by
      unfold wrapped_azimuth_diff
      exact Int.tmod_eq_emod (by omega) (by decide)
    have hlo : 0 ≤ wrapped_azimuth_diff (raw_azimuth_diff pkt b) := by
      rw [hmod]; exact Int.emod_nonneg _ (by decide)
    have hhi : wrapped_azimuth_diff (raw_azimuth_diff pkt b) < 36000 := by
      rw [hmod]; exact Int.emod_lt_of_pos _ (by decide)
    cases h
    exact ⟨by exact_mod_cast hlo, by exact_mod_cast hhi⟩
  · cases h; exact ⟨h0, h1⟩

/-- The loop keeps `last_azimuth_diff` in `[0, 36000)`. -/
theorem vlp16_blocks_last_range (rd : RawData) (pkt : VelodynePacket) (n : Nat) :
    ∀ (b : Nat) (s : Vlp16State), 0 ≤ s.last_azimuth_diff → s.last_azimuth_diff < 36000 →
      0 ≤ (vlp16_blocks rd pkt n b s).last_azimuth_diff ∧
      (vlp16_blocks rd pkt n b s).last_azimuth_diff < 36000 := by
  induction n with
  | zero => intro b s h0 h1; exact ⟨h0, h1⟩
  | succ n ih =>
    intro b s h0 h1
    by_cases hh : (pkt.blocks b).header = UPPER_BANK
    · rw [vlp16_blocks_succ rd pkt n b s hh]
      cases hsel : select_azimuth_diff pkt b s.last_azimuth_diff with
      | none => exact ih (b + 1) s h0 h1
      | some ad =>
        have hr := select_azimuth_diff_range pkt b _ ad h0 h1 hsel
        apply ih
        · rw [vlp16_block_last]; exact hr.1
        · rw [vlp16_block_last]; exact hr.2
    · rw [vlp16_blocks, if_pos (fun h => hh h.symm)]
      exact ⟨h0, h1⟩

/-- Entries added by the loop come from returns that passed both filters and
were decoded with an azimuth difference in `[0, 36000)`. -/
theorem vlp16_blocks_data_mem_range (rd : RawData) (pkt : VelodynePacket) (n : Nat) :
    ∀ (b : Nat) (s : Vlp16State), 0 ≤ s.last_azimuth_diff → s.last_azimuth_diff < 36000 →
      ∀ e ∈ (vlp16_blocks rd pkt n b s).data,
        e ∈ s.data ∨ ∃ block ad, 0 ≤ ad ∧ ad < 36000 ∧
          ∃ firing < VLP16_FIRINGS_PER_BLOCK, ∃ dsr < VLP16_SCANS_PER_FIRING,
            Vlp16From rd pkt block ad firing dsr e := by
  induction n with
  | zero => intro b s _ _ e he; exact Or.inl he
  | succ n ih =>
    intro b s h0 h1 e he
    by_cases hh : (pkt.blocks b).header = UPPER_BANK
    · rw [vlp16_blocks_succ rd pkt n b s hh] at he
      cases hsel : select_azimuth_diff pkt b s.last_azimuth_diff with
      | none =>
        rw [hsel] at he
        exact ih (b + 1) s h0 h1 e he
      | some ad =>
        rw [hsel] at he
        have hr := select_azimuth_diff_range pkt b _ ad h0 h1 hsel
        rcases ih (b + 1) _ (by rw [vlp16_block_last]; exact hr.1)
          (by rw [vlp16_block_last]; exact hr.2) e he with h | h
        · rcases vlp16_block_data_mem rd pkt b ad _ e h with h2 | h2
          · exact Or.inl h2
          · exact Or.inr ⟨b, ad, hr.1, hr.2, h2⟩
        · exact Or.inr h
    · rw [vlp16_blocks, if_pos (fun h => hh h.symm)] at he
      exact Or.inl he

/-- The difference selected for a block when `last_azimuth_diff` is 0 and the
raw difference to the next block, if any, is 0. -/
theorem select_azimuth_diff_zero (pkt : VelodynePacket) (b : Nat)
    (hraw : b < BLOCKS_PER_PACKET - 1 → raw_azimuth_diff pkt b = 0) :
    select_azimuth_diff pkt b 0 = some 0 := by
  have hwrap : ((wrapped_azimuth_diff 0 : Int) : ℚ) = 0 := by
    have : wrapped_azimuth_diff 0 = 0 := by decide
    rw [this]
    rfl
  unfold select_azimuth_diff
  by_cases hb : b < BLOCKS_PER_PACKET - 1
  · rw [if_pos hb, hraw hb, if_neg (lt_irrefl 0), hwrap]
  · rw [if_neg hb]

/-- Blocks with the right marker, raw difference 0 and returns that all pass
both filters add 32 sink entries each. -/
theorem vlp16_blocks_all_pass (rd : RawData) (pkt : VelodynePacket) (n : Nat) :
    ∀ (b : Nat) (s : Vlp16State), s.last_azimuth_diff = 0 →
      (∀ i, b ≤ i → i < b + n →
        (pkt.blocks i).header = UPPER_BANK ∧
        (i < BLOCKS_PER_PACKET - 1 → raw_azimuth_diff pkt i = 0) ∧
        ∀ firing dsr,
          angleInView rd.config_.min_angle rd.config_.max_angle
            (azimuth_corrected ((pkt.blocks i).rotation : ℚ) 0 firing dsr) = true ∧
          pointInRange rd.config_
            (distance (rd.calibration_.laser_corrections dsr)
              (tmp_uint (pkt.blocks i)
                ((firing * VLP16_SCANS_PER_FIRING + dsr) * RAW_SCAN_SIZE))) = true) →
      (vlp16_blocks rd pkt n b s).data.length = s.data.length + 32 * n := by
  induction n with
  | zero => intro b s _ _; rfl
  | succ n ih =>
    intro b s hs h
    obtain ⟨hh, hraw, hpass⟩ := h b (le_refl b) (by omega)
    rw [vlp16_blocks_succ rd pkt n b s hh, hs, select_azimuth_diff_zero pkt b hraw]
    simp only
    rw [ih (b + 1) _ (by rw [vlp16_block_last]) (fun i h1 h2 => h i (by omega) (by omega)),
      vlp16_block_all_pass rd pkt b 0 _ hpass]
    ring

/-! ## C11: the corrected distance -/

/-- The value of `last_azimuth_diff` after one more block with the right
marker: the difference the block was decoded with, or the old value when the
block was skipped. -/
theorem vlp16_blocks_last_succ (rd : RawData) (pkt : VelodynePacket) (m : Nat)
    (hh : ∀ i, i ≤ m → (pkt.blocks i).header = UPPER_BANK) :
    (vlp16_blocks rd pkt (m + 1) 0 vlp16_init).last_azimuth_diff =
      match select_azimuth_diff pkt m (vlp16_blocks rd pkt m 0 vlp16_init).last_azimuth_diff with
      | some ad => ad
      | none => (vlp16_blocks rd pkt m 0 vlp16_init).last_azimuth_diff := by
  rw [vlp16_blocks_add rd pkt m 1 0 vlp16_init (fun i _ h2 => hh i (by omega))]
  rw [Nat.zero_add, vlp16_blocks_succ rd pkt 0 m _ (hh m (le_refl m))]
  cases select_azimuth_diff pkt m (vlp16_blocks rd pkt m 0 vlp16_init).last_azimuth_diff with
  | none => rfl
  | some ad =>
    show (vlp16_block rd pkt m ad _).last_azimuth_diff = ad
    rw [vlp16_block_last]

/-! ## C12, C13: a negative raw azimuth difference -/

/-- All returns of a block with rotation below 36000 pass both filters of the
default configuration when decoded with difference 0 by a decoder calibrated
with `plainCorrection`, if the data bytes are 1. -/
theorem default_filters_pass (num_lasers : Int) (pkt : VelodynePacket) (i r : Nat)
    (hr : (pkt.blocks i).rotation = r) (hr36 : r < 36000)
    (hdata : (pkt.blocks i).data = fun _ => 1) (firing dsr : Nat) :
    angleInView (plainDecoder num_lasers defaultConfig).config_.min_angle
        (plainDecoder num_lasers defaultConfig).config_.max_angle
        (azimuth_corrected ((pkt.blocks i).rotation : ℚ) 0 firing dsr) = true ∧
    pointInRange (plainDecoder num_lasers defaultConfig).config_
      (distance ((plainDecoder num_lasers defaultConfig).calibration_.laser_corrections dsr)
        (tmp_uint (pkt.blocks i)
          ((firing * VLP16_SCANS_PER_FIRING + dsr) * RAW_SCAN_SIZE))) = true := by
  constructor
  · rw [hr, azimuth_corrected_zero_diff]
    show angleInView defaultConfig.min_angle defaultConfig.max_angle _ = true
    rw [defaultConfig_eq, angleInView_iff]
    have h1 : (r : Int).tmod 36000 = r := by
      rw [Int.tmod_eq_emod (by omega) (by decide)]
      exact Int.emod_eq_of_lt (by omega) (by omega)
    rw [h1]
    exact Or.inl ⟨by decide, by simp, by simp; omega⟩
  · show pointInRange defaultConfig _ = true
    rw [defaultConfig_eq]
    norm_num [pointInRange, distance, tmp_uint, hdata, plainDecoder, plainCorrection,
      DISTANCE_RESOLUTION]

/-- C12, counterexample: in `stalledPacket` the blocks 0 and 1 have the same
rotation 100 and block 2 has rotation 50.  Block 0 is processed with the
azimuth difference 0 (its 32 points are emitted, and 0 is the difference kept
for the next block); block 1 has a valid marker and a negative raw difference,
all its returns would pass both filters with the previous difference 0, and
yet no point of block 1 is emitted: the block is skipped. -/
theorem C12_zero_previous_difference_skips :
    (stalledPacket.blocks 0).header = UPPER_BANK ∧
    (stalledPacket.blocks 1).header = UPPER_BANK ∧
    raw_azimuth_diff stalledPacket 1 < 0 ∧
    select_azimuth_diff stalledPacket 0 vlp16_init.last_azimuth_diff = some 0 ∧
    (vlp16_blocks (plainDecoder 16 defaultConfig) stalledPacket 1 0 vlp16_init).data.length = 32 ∧
    (vlp16_blocks (plainDecoder 16 defaultConfig) stalledPacket 1 0
      vlp16_init).last_azimuth_diff = 0 ∧
    (∀ firing dsr,
      angleInView (plainDecoder 16 defaultConfig).config_.min_angle
          (plainDecoder 16 defaultConfig).config_.max_angle
          (azimuth_corrected ((stalledPacket.blocks 1).rotation : ℚ) 0 firing dsr) = true ∧
      pointInRange (plainDecoder 16 defaultConfig).config_
        (distance ((plainDecoder 16 defaultConfig).calibration_.laser_corrections dsr)
          (tmp_uint (stalledPacket.blocks 1)
            ((firing * VLP16_SCANS_PER_FIRING + dsr) * RAW_SCAN_SIZE))) = true) ∧
    (unpack_vlp16 (plainDecoder 16 defaultConfig) stalledPacket).2.length = 352 ∧
    ∀ e ∈ (unpack_vlp16 (plainDecoder 16 defaultConfig) stalledPacket).2, e.block ≠ 1 := by
  have hraw0 : raw_azimuth_diff stalledPacket 0 = 0 := by decide
  have hraw1 : raw_azimuth_diff stalledPacket 1 < 0 := by decide
  have hsel0 : select_azimuth_diff stalledPacket 0 0 = some 0 :=
    select_azimuth_diff_zero stalledPacket 0 (fun _ => hraw0)
  have hpass : ∀ i firing dsr,
      angleInView (plainDecoder 16 defaultConfig).config_.min_angle
          (plainDecoder 16 defaultConfig).config_.max_angle
          (azimuth_corrected ((stalledPacket.blocks i).rotation : ℚ) 0 firing dsr) = true ∧
      pointInRange (plainDecoder 16 defaultConfig).config_
        (distance ((plainDecoder 16 defaultConfig).calibration_.laser_corrections dsr)
          (tmp_uint (stalledPacket.blocks i)
            ((firing * VLP16_SCANS_PER_FIRING + dsr) * RAW_SCAN_SIZE))) = true := by
    intro i firing dsr
    by_cases hi : i ≤ 1
    · exact default_filters_pass 16 stalledPacket i 100 (by simp [stalledPacket, hi])
        (by decide) rfl firing dsr
    · exact default_filters_pass 16 stalledPacket i 50 (by simp [stalledPacket, hi])
        (by decide) rfl firing dsr
  -- the state after block 0
  have hstep0 : ∀ n, vlp16_blocks (plainDecoder 16 defaultConfig) stalledPacket (n + 1) 0
      vlp16_init = vlp16_blocks (plainDecoder 16 defaultConfig) stalledPacket n 1
        (vlp16_block (plainDecoder 16 defaultConfig) stalledPacket 0 0 vlp16_init) := by
    intro n
    exact vlp16_blocks_succ_some _ _ n 0 vlp16_init 0 rfl hsel0
  have hlen1 : (vlp16_block (plainDecoder 16 defaultConfig) stalledPacket 0 0
      vlp16_init).data.length = 32 := by
    rw [vlp16_block_all_pass _ _ _ _ _ (hpass 0)]
    rfl
  have hlast1 : (vlp16_block (plainDecoder 16 defaultConfig) stalledPacket 0 0
      vlp16_init).last_azimuth_diff = 0 := by
    rw [vlp16_block_last]
    rfl
  -- block 1 is skipped
  have hsel1 : select_azimuth_diff stalledPacket 1 0 = none := by
    unfold select_azimuth_diff
    rw [if_pos (by decide), if_pos hraw1, if_neg (lt_irrefl 0)]
  have hstep1 : ∀ n (s : Vlp16State), s.last_azimuth_diff = 0 →
      vlp16_blocks (plainDecoder 16 defaultConfig) stalledPacket (n + 1) 1 s =
        vlp16_blocks (plainDecoder 16 defaultConfig) stalledPacket n 2 s := by
    intro n s hs
    exact vlp16_blocks_succ_none _ _ n 1 s rfl (by rw [hs]; exact hsel1)
  have hout : (unpack_vlp16 (plainDecoder 16 defaultConfig) stalledPacket).2 =
      (vlp16_blocks (plainDecoder 16 defaultConfig) stalledPacket 10 2
        (vlp16_block (plainDecoder 16 defaultConfig) stalledPacket 0 0 vlp16_init)).data := by
    show (vlp16_blocks (plainDecoder 16 defaultConfig) stalledPacket (11 + 1) 0 vlp16_init).data = _
    rw [hstep0 11]
    show (vlp16_blocks (plainDecoder 16 defaultConfig) stalledPacket (10 + 1) 1 _).data = _
    rw [hstep1 10 _ hlast1]
  refine ⟨rfl, rfl, hraw1, hsel0, ?_, ?_, hpass 1, ?_, ?_⟩
  · rw [hstep0 0]
    exact hlen1
  · rw [hstep0 0]
    exact hlast1
  · rw [hout, vlp16_blocks_all_pass _ _ 10 2 _ hlast1, hlen1]
    intro i h1 h2
    refine ⟨rfl, fun _ => ?_, hpass i⟩
    have hi : ¬ i ≤ 1 := by omega
    have hi1 : ¬ i + 1 ≤ 1 := by omega
    simp [raw_azimuth_diff, stalledPacket, hi, hi1]
  · intro e he
    rw [hout] at he
    rcases vlp16_blocks_data_mem _ _ 10 2 _ e he with h | ⟨blk, ad, h1, _, _, _, _, _, h3⟩
    · rcases vlp16_block_data_mem _ _ 0 0 _ e h with h4 | ⟨_, _, _, _, h4⟩
      · simp [vlp16_init] at h4
      · rw [h4.1]
        exact Nat.zero_ne_one
    · rw [h3.1]
      show blk ≠ 1
      omega

/-- C12, as amended: in the 16-beam decoder, for a non-final block with a valid
marker whose raw azimuth difference to the next block is negative, the returns
are interpolated with the azimuth difference kept from the previous processed
block if that difference is positive; if it is 0 (no block was processed
before, or the difference kept is 0) the block is skipped and the state is
left as it is. -/
theorem C12_negative_difference (rd : RawData) (pkt : VelodynePacket) (n b : Nat)
    (s : Vlp16State) (hh : (pkt.blocks b).header = UPPER_BANK)
    (hb : b < BLOCKS_PER_PACKET - 1) (hraw : raw_azimuth_diff pkt b < 0) :
    (s.last_azimuth_diff > 0 →
      vlp16_blocks rd pkt (n + 1) b s =
        vlp16_blocks rd pkt n (b + 1) (vlp16_block rd pkt b s.last_azimuth_diff s)) ∧
    (s.last_azimuth_diff ≤ 0 →
      vlp16_blocks rd pkt (n + 1) b s = vlp16_blocks rd pkt n (b + 1) s) := by
  constructor
  · intro hl
    rw [vlp16_blocks, if_neg (by simp [hh]), if_pos hb, if_pos hraw, if_pos hl]
  · intro hl
    rw [vlp16_blocks, if_neg (by simp [hh]), if_pos hb, if_pos hraw, if_neg (not_lt.mpr hl)]

/-- C12, witness: in `jitterPacket` the rotations are 100, 300, 200.  Block 0 is
decoded with the difference 200, which is kept; block 1 has a negative raw
difference and is decoded with the kept difference 200. -/
theorem C12_negative_difference_witness :
    (jitterPacket.blocks 1).header = UPPER_BANK ∧ raw_azimuth_diff jitterPacket 1 < 0 ∧
    (vlp16_blocks (plainDecoder 16 defaultConfig) jitterPacket 1 0
      vlp16_init).last_azimuth_diff = 200 ∧
    vlp16_blocks (plainDecoder 16 defaultConfig) jitterPacket (10 + 1) 1
        (vlp16_blocks (plainDecoder 16 defaultConfig) jitterPacket 1 0 vlp16_init) =
      vlp16_blocks (plainDecoder 16 defaultConfig) jitterPacket 10 (1 + 1)
        (vlp16_block (plainDecoder 16 defaultConfig) jitterPacket 1 200
          (vlp16_blocks (plainDecoder 16 defaultConfig) jitterPacket 1 0 vlp16_init)) := by
  have hsel : select_azimuth_diff jitterPacket 0 0 = some 200 := by
    have hraw : raw_azimuth_diff jitterPacket 0 = 200 := by decide
    have hw : wrapped_azimuth_diff 200 = 200 := by decide
    unfold select_azimuth_diff
    rw [if_pos (by decide), hraw, if_neg (by decide), hw]
    norm_num
  have hlast : (vlp16_blocks (plainDecoder 16 defaultConfig) jitterPacket 1 0
      vlp16_init).last_azimuth_diff = 200 := by
    have h0 := vlp16_blocks_last_succ (plainDecoder 16 defaultConfig) jitterPacket 0
      (fun _ _ => rfl)
    rw [show (vlp16_blocks (plainDecoder 16 defaultConfig) jitterPacket 0 0
      vlp16_init).last_azimuth_diff = 0 from rfl, hsel] at h0
    exact h0
  have h := (C12_negative_difference (plainDecoder 16 defaultConfig) jitterPacket 10 1
    (vlp16_blocks (plainDecoder 16 defaultConfig) jitterPacket 1 0 vlp16_init) rfl
    (by decide) (by decide)).1 (by rw [hlast]; norm_num)
  rw [hlast] at h
  exact ⟨rfl, by decide, hlast, h⟩

/-- C13: in the 16-beam decoder, if the first block of a packet has a valid
marker and a negative raw azimuth difference to the second block, then the
first block emits no point, `last_azimuth_diff` is still 0 when the second
block is entered, and decoding continues with the second block: the result is
what the remaining 11 iterations compute from the initial state. -/
theorem C13_first_block_negative_difference (rd : RawData) (pkt : VelodynePacket)
    (hh : (pkt.blocks 0).header = UPPER_BANK) (hraw : raw_azimuth_diff pkt 0 < 0) :
    unpack_vlp16 rd pkt =
        ((vlp16_blocks rd pkt 11 1 vlp16_init).time, (vlp16_blocks rd pkt 11 1 vlp16_init).data) ∧
    vlp16_init.last_azimuth_diff = 0 ∧ vlp16_init.data = [] ∧
    ∀ e ∈ (unpack_vlp16 rd pkt).2, e.block ≠ 0 := by
  have hstep : vlp16_blocks rd pkt BLOCKS_PER_PACKET 0 vlp16_init =
      vlp16_blocks rd pkt 11 1 vlp16_init := by
    show vlp16_blocks rd pkt (11 + 1) 0 vlp16_init = _
    rw [vlp16_blocks, if_neg (by simp [hh]), if_pos (by decide), if_pos hraw,
      if_neg (by simp [vlp16_init])]
  have heq : unpack_vlp16 rd pkt =
      ((vlp16_blocks rd pkt 11 1 vlp16_init).time, (vlp16_blocks rd pkt 11 1 vlp16_init).data) := by
    unfold unpack_vlp16
    rw [hstep]
  refine ⟨heq, rfl, rfl, ?_⟩
  intro e he
  rw [heq] at he
  rcases vlp16_blocks_data_mem rd pkt 11 1 vlp16_init e he with h | ⟨blk, ad, h1, _, _, _, _, _, h3⟩
  · simp [vlp16_init] at h
  · rw [h3.1]
    show blk ≠ 0
    omega

/-- C13, witness: in `wrapPacket` the rotation falls from 35900 in block 0 to 100
in block 1; block 0 emits nothing and the other 11 blocks emit their 352
points. -/
theorem C13_first_block_negative_difference_witness :
    (wrapPacket.blocks 0).header = UPPER_BANK ∧ raw_azimuth_diff wrapPacket 0 < 0 ∧
    (unpack_vlp16 (plainDecoder 16 defaultConfig) wrapPacket).2.length = 352 ∧
    ∀ e ∈ (unpack_vlp16 (plainDecoder 16 defaultConfig) wrapPacket).2, e.block ≠ 0 := by
  have h := C13_first_block_negative_difference (plainDecoder 16 defaultConfig) wrapPacket rfl
    (by decide)
  refine ⟨rfl, by decide, ?_, h.2.2.2⟩
  rw [h.1]
  show (vlp16_blocks (plainDecoder 16 defaultConfig) wrapPacket 11 1 vlp16_init).data.length = 352
  rw [vlp16_blocks_all_pass _ _ 11 1 vlp16_init rfl]
  · rfl
  · intro i h1 h2
    have hi : ¬ i = 0 := by omega
    refine ⟨rfl, fun _ => ?_, ?_⟩
    · simp [raw_azimuth_diff, wrapPacket, hi]
    · intro firing dsr
      exact default_filters_pass 16 wrapPacket i 100 (by simp [wrapPacket, hi]) (by decide) rfl
        firing dsr

/-! ## C14: the final block -/

/-- When every raw difference is negative no block before the final one is
processed. -/
theorem vlp16_blocks_all_skipped (rd : RawData) (pkt : VelodynePacket) (m : Nat)
    (hm : m ≤ BLOCKS_PER_PACKET - 1)
    (hh : ∀ i, i < m → (pkt.blocks i).header = UPPER_BANK)
    (hraw : ∀ i, i < m → raw_azimuth_diff pkt i < 0) :
    vlp16_blocks rd pkt m 0 vlp16_init = vlp16_init := by
  induction m with
  | zero => rfl
  | succ m ih =>
    have hprev := ih (by omega) (fun i hi => hh i (by omega)) (fun i hi => hraw i (by omega))
    rw [vlp16_blocks_add rd pkt m 1 0 vlp16_init (fun i _ h2 => hh i (by omega)), hprev,
      Nat.zero_add]
    rw [vlp16_blocks, if_neg (by simp [hh m (by omega)]), if_pos (by omega),
      if_pos (hraw m (by omega)), if_neg (by simp [vlp16_init])]
    rfl

/-- C14, counterexample: in `badFirstPacket` the final block has a valid marker
and all its returns would pass both filters with the azimuth difference 0, so
that processing it would add 32 points; but block 0 has a wrong marker, the
decoder returns there, and the final block is not processed: the sink is
empty. -/
theorem C14_final_block_not_reached :
    (badFirstPacket.blocks 11).header = UPPER_BANK ∧
    (vlp16_blocks (plainDecoder 16 defaultConfig) badFirstPacket 11 0
      vlp16_init).last_azimuth_diff = 0 ∧
    (vlp16_block (plainDecoder 16 defaultConfig) badFirstPacket 11
      (vlp16_blocks (plainDecoder 16 defaultConfig) badFirstPacket 11 0
        vlp16_init).last_azimuth_diff
      (vlp16_blocks (plainDecoder 16 defaultConfig) badFirstPacket 11 0
        vlp16_init)).data.length = 32 ∧
    (unpack_vlp16 (plainDecoder 16 defaultConfig) badFirstPacket).2 = [] := by
  have hstop : vlp16_blocks (plainDecoder 16 defaultConfig) badFirstPacket 11 0 vlp16_init
      = vlp16_init :=
    vlp16_blocks_stop (plainDecoder 16 defaultConfig) badFirstPacket 0 11 0 vlp16_init
      (by decide) (by decide)
  refine ⟨rfl, ?_, ?_, ?_⟩
  · rw [hstop]; rfl
  · rw [hstop]
    show (vlp16_block (plainDecoder 16 defaultConfig) badFirstPacket 11 0 vlp16_init).data.length
      = 32
    rw [vlp16_block_all_pass _ _ _ _ _
      (default_filters_pass 16 badFirstPacket 11 0 rfl (by decide) rfl)]
    rfl
  · rw [(unpack_vlp16_stop (plainDecoder 16 defaultConfig) badFirstPacket 0
      (by decide) (by decide)).1]
    rfl

/-- C14, as amended: in the 16-beam decoder the final block (index 11) of a
packet whose twelve markers are valid is always processed, with the azimuth
difference kept in `last_azimuth_diff` after the first 11 blocks.  That value
starts at 0 and after
each earlier block is the difference that block was decoded with, or is
unchanged if the block was skipped: it is the difference most recently used by
an earlier processed block, and 0 if there is none.  With the difference 0 all
32 returns of the final block get the corrected azimuth `rotation mod 36000`. -/
theorem C14_final_block (rd : RawData) (pkt : VelodynePacket)
    (hh : ∀ i, i < BLOCKS_PER_PACKET → (pkt.blocks i).header = UPPER_BANK) :
    unpack_vlp16 rd pkt =
      ((vlp16_block rd pkt 11 (vlp16_blocks rd pkt 11 0 vlp16_init).last_azimuth_diff
          (vlp16_blocks rd pkt 11 0 vlp16_init)).time,
       (vlp16_block rd pkt 11 (vlp16_blocks rd pkt 11 0 vlp16_init).last_azimuth_diff
          (vlp16_blocks rd pkt 11 0 vlp16_init)).data) ∧
    (vlp16_blocks rd pkt 0 0 vlp16_init).last_azimuth_diff = 0 ∧
    (∀ m, m < 11 →
      (vlp16_blocks rd pkt (m + 1) 0 vlp16_init).last_azimuth_diff =
        match select_azimuth_diff pkt m
            (vlp16_blocks rd pkt m 0 vlp16_init).last_azimuth_diff with
        | some ad => ad
        | none => (vlp16_blocks rd pkt m 0 vlp16_init).last_azimuth_diff) ∧
    ((∀ m, m < 11 → raw_azimuth_diff pkt m < 0) →
      (vlp16_blocks rd pkt 11 0 vlp16_init).last_azimuth_diff = 0) ∧
    ((vlp16_blocks rd pkt 11 0 vlp16_init).last_azimuth_diff = 0 →
      ∀ firing dsr,
        azimuth_corrected ((pkt.blocks 11).rotation : ℚ)
            (vlp16_blocks rd pkt 11 0 vlp16_init).last_azimuth_diff firing dsr =
          ((pkt.blocks 11).rotation : Int) % 36000) := by
  unfold BLOCKS_PER_PACKET at hh
  refine ⟨?_, rfl, ?_, ?_, ?_⟩
  · unfold unpack_vlp16
    show ((vlp16_blocks rd pkt (11 + 1) 0 vlp16_init).time,
      (vlp16_blocks rd pkt (11 + 1) 0 vlp16_init).data) = _
    rw [vlp16_blocks_add rd pkt 11 1 0 vlp16_init (fun i _ h2 => hh i (by omega))]
    rw [Nat.zero_add, vlp16_blocks, if_neg (by simp [hh 11 (by omega)]),
      if_neg (by decide)]
    rfl
  · intro m hm
    exact vlp16_blocks_last_succ rd pkt m (fun i hi => hh i (by omega))
  · intro hraw
    rw [vlp16_blocks_all_skipped rd pkt 11 (by decide) (fun i hi => hh i (by omega)) hraw]
    rfl
  · intro h0 firing dsr
    rw [h0, azimuth_corrected_zero_diff]
    exact Int.tmod_eq_emod (by omega) (by decide)

/-- C14, witness: in `steadyPacket` every block is decoded with the difference
0; the final block is processed and its returns have the azimuth of the block. -/
theorem C14_final_block_witness :
    (∀ i, i < BLOCKS_PER_PACKET → (steadyPacket.blocks i).header = UPPER_BANK) ∧
    (unpack_vlp16 (plainDecoder 16 defaultConfig) steadyPacket).2.length = 384 ∧
    (unpack_vlp16 (plainDecoder 16 defaultConfig) steadyPacket).2 =
      (vlp16_block (plainDecoder 16 defaultConfig) steadyPacket 11
        (vlp16_blocks (plainDecoder 16 defaultConfig) steadyPacket 11 0
          vlp16_init).last_azimuth_diff
        (vlp16_blocks (plainDecoder 16 defaultConfig) steadyPacket 11 0 vlp16_init)).data := by
  have hh : ∀ i, i < BLOCKS_PER_PACKET → (steadyPacket.blocks i).header = UPPER_BANK :=
    fun _ _ => rfl
  have h := (C14_final_block (plainDecoder 16 defaultConfig) steadyPacket hh).1
  refine ⟨hh, ?_, by rw [h]⟩
  show (vlp16_blocks (plainDecoder 16 defaultConfig) steadyPacket 12 0 vlp16_init).data.length
    = 384
  rw [vlp16_blocks_all_pass _ _ 12 0 vlp16_init rfl]
  · rfl
  · intro i _ _
    refine ⟨rfl, fun _ => ?_, ?_⟩
    · simp [raw_azimuth_diff, steadyPacket]
    · intro firing dsr
      exact default_filters_pass 16 steadyPacket i 0 rfl (by decide) rfl firing dsr

theorem cround_nonneg (q : ℚ) (h : 0 ≤ q) : 0 ≤ cround q := by
  unfold cround
  rw [if_pos h]
  exact Int.floor_nonneg.mpr (by linarith)

theorem intra_block_toffset_nonneg (firing dsr : Nat) : 0 ≤ intra_block_toffset firing dsr := by
  unfold intra_block_toffset VLP16_DSR_TOFFSET VLP16_FIRING_TOFFSET
  have h1 : (0 : ℚ) ≤ dsr := Nat.cast_nonneg dsr
  have h2 : (0 : ℚ) ≤ firing := Nat.cast_nonneg firing
  norm_num
  positivity

theorem azimuth_corrected_f_eq (azimuth azimuth_diff : ℚ) (firing dsr : Nat) :
    azimuth_corrected_f azimuth azimuth_diff firing dsr =
      azimuth + azimuth_diff * intra_block_toffset firing dsr / VLP16_BLOCK_TDURATION := rfl

theorem azimuth_corrected_f_nonneg (r : Nat) (ad : ℚ) (had : 0 ≤ ad) (firing dsr : Nat) :
    0 ≤ azimuth_corrected_f (r : ℚ) ad firing dsr := by
  rw [azimuth_corrected_f_eq]
  have h1 : (0 : ℚ) ≤ r := Nat.cast_nonneg r
  have h2 := intra_block_toffset_nonneg firing dsr
  have h3 : (0 : ℚ) < VLP16_BLOCK_TDURATION := by norm_num [VLP16_BLOCK_TDURATION]
  have h4 : 0 ≤ ad * intra_block_toffset firing dsr / VLP16_BLOCK_TDURATION :=
    div_nonneg (mul_nonneg had h2) h3.le
  linarith

/-- C16: in both decoders, if the table entry at the index holds
`(sin t, cos t)` and the calibration of the beam holds `(sin a, cos a)` for real
angles `t` and `a`, then `cos_rot_angle = cos (t - a)` and
`sin_rot_angle = sin (t - a)` over the reals, hence
`sin_rot_angle ^ 2 + cos_rot_angle ^ 2 = 1`. -/
theorem C16_angle_subtraction (rd : RawData) (c : LaserCorrection) (idx : Int) (t a : ℝ)
    (hst : ((rd.sin_rot_table_ idx : ℚ) : ℝ) = Real.sin t)
    (hct : ((rd.cos_rot_table_ idx : ℚ) : ℝ) = Real.cos t)
    (hsa : ((c.sin_rot_correction : ℚ) : ℝ) = Real.sin a)
    (hca : ((c.cos_rot_correction : ℚ) : ℝ) = Real.cos a) :
    ((cos_rot_angle rd c idx : ℚ) : ℝ) = Real.cos (t - a) ∧
    ((sin_rot_angle rd c idx : ℚ) : ℝ) = Real.sin (t - a) ∧
    sin_rot_angle rd c idx ^ 2 + cos_rot_angle rd c idx ^ 2 = 1 := by
  have hc : ((cos_rot_angle rd c idx : ℚ) : ℝ) = Real.cos (t - a) := by
    unfold cos_rot_angle
    push_cast
    rw [hst, hct, hsa, hca, Real.cos_sub]
  have hs : ((sin_rot_angle rd c idx : ℚ) : ℝ) = Real.sin (t - a) := by
    unfold sin_rot_angle
    push_cast
    rw [hst, hct, hsa, hca, Real.sin_sub]
  refine ⟨hc, hs, ?_⟩
  have h : (((sin_rot_angle rd c idx ^ 2 + cos_rot_angle rd c idx ^ 2 : ℚ)) : ℝ) = 1 := by
    push_cast
    rw [hc, hs]
    exact Real.sin_sq_add_cos_sq (t - a)
  exact_mod_cast h

/-- C16, witness: the angles `t = 0` and `a = 0`, with the table entries
`(0, 1)` of `plainDecoder` and the calibration `(0, 1)` of `plainCorrection`. -/
theorem C16_angle_subtraction_witness :
    ((cos_rot_angle (plainDecoder 64 defaultConfig) plainCorrection 0 : ℚ) : ℝ) =
      Real.cos (0 - 0) ∧
    ((sin_rot_angle (plainDecoder 64 defaultConfig) plainCorrection 0 : ℚ) : ℝ) =
      Real.sin (0 - 0) ∧
    sin_rot_angle (plainDecoder 64 defaultConfig) plainCorrection 0 ^ 2 +
      cos_rot_angle (plainDecoder 64 defaultConfig) plainCorrection 0 ^ 2 = 1 :=
  C16_angle_subtraction (plainDecoder 64 defaultConfig) plainCorrection 0 0 0
    (by simp [plainDecoder]) (by simp [plainDecoder]) (by simp [plainCorrection])
    (by simp [plainCorrection])

/-! ## C17: two-point calibration -/

/-- C17: when two-point calibration is available the per-axis distance
correction is the linear interpolation through the two reference points.  For
the x axis: at provisional `|x| = 25.04` the extra correction is 0, so
`distance_x` is the base corrected distance, and at `|x| = 2.4` the total
correction is `dist_correction_x`, so `distance_x = count * 0.002 +
dist_correction_x`; likewise for the y axis with the reference values 25.04 and
1.93 and `dist_correction_y`.  If `dist_correction_x = dist_correction` (resp.
y) the extra correction is 0 for every provisional value. -/
theorem C17_two_point_interpolation (c : LaserCorrection) (cosr sinr : ℚ) (count : Nat)
    (h : c.two_pt_correction_available = true) :
    (∀ v, distance_corr_x c v + c.dist_correction =
      c.dist_correction_x + (c.dist_correction - c.dist_correction_x) * (v - 2.4) / (25.04 - 2.4)) ∧
    (∀ v, distance_corr_y c v + c.dist_correction =
      c.dist_correction_y +
        (c.dist_correction - c.dist_correction_y) * (v - 1.93) / (25.04 - 1.93)) ∧
    (xx c cosr sinr (distance c count) = 25.04 →
      distance_corr_x c (xx c cosr sinr (distance c count)) = 0 ∧
      distance_x c cosr sinr (distance c count) = distance c count) ∧
    (xx c cosr sinr (distance c count) = 2.4 →
      distance_x c cosr sinr (distance c count) = (count : ℚ) * 0.002 + c.dist_correction_x) ∧
    (yy c cosr sinr (distance c count) = 25.04 →
      distance_corr_y c (yy c cosr sinr (distance c count)) = 0 ∧
      distance_y c cosr sinr (distance c count) = distance c count) ∧
    (yy c cosr sinr (distance c count) = 1.93 →
      distance_y c cosr sinr (distance c count) = (count : ℚ) * 0.002 + c.dist_correction_y) ∧
    (c.dist_correction_x = c.dist_correction → ∀ v, distance_corr_x c v = 0) ∧
    (c.dist_correction_y = c.dist_correction → ∀ v, distance_corr_y c v = 0) := by
  have hx : ∀ v, distance_corr_x c v =
      ((c.dist_correction - c.dist_correction_x) * (v - 2.4) / (25.04 - 2.4)
        + c.dist_correction_x) - c.dist_correction := by
    intro v; unfold distance_corr_x; rw [h]; rfl
  have hy : ∀ v, distance_corr_y c v =
      ((c.dist_correction - c.dist_correction_y) * (v - 1.93) / (25.04 - 1.93)
        + c.dist_correction_y) - c.dist_correction := by
    intro v; unfold distance_corr_y; rw [h]; rfl
  have hd : distance c count = (count : ℚ) * 0.002 + c.dist_correction := by
    unfold distance DISTANCE_RESOLUTION
    norm_num
  refine ⟨?_, ?_, ?_, ?_, ?_, ?_, ?_, ?_⟩
  · intro v; rw [hx]; ring
  · intro v; rw [hy]; ring
  · intro hv
    have h0 : distance_corr_x c (xx c cosr sinr (distance c count)) = 0 := by
      rw [hx, hv]; norm_num
    refine ⟨h0, ?_⟩
    unfold distance_x
    rw [h0]; ring
  · intro hv
    unfold distance_x
    rw [hx, hv, hd]; norm_num
  · intro hv
    have h0 : distance_corr_y c (yy c cosr sinr (distance c count)) = 0 := by
      rw [hy, hv]; norm_num
    refine ⟨h0, ?_⟩
    unfold distance_y
    rw [h0]; ring
  · intro hv
    unfold distance_y
    rw [hy, hv, hd]; norm_num
  · intro he v
    rw [hx, he]; ring
  · intro he v
    rw [hy, he]; ring

/-- C17, witness: for `twoPointCorrection` with the rotation pair
`(cos, sin) = (0, 1)` the count 12520 gives the provisional `|x| = 25.04` and
`distance_x` is the base distance 25.04; the count 1200 gives `|x| = 2.4` and
`distance_x = 2.4 + 0.1`. -/
theorem C17_two_point_interpolation_witness :
    twoPointCorrection.two_pt_correction_available = true ∧
    xx twoPointCorrection 0 1 (distance twoPointCorrection 12520) = 25.04 ∧
    distance_x twoPointCorrection 0 1 (distance twoPointCorrection 12520) = 25.04 ∧
    xx twoPointCorrection 0 1 (distance twoPointCorrection 1200) = 2.4 ∧
    distance_x twoPointCorrection 0 1 (distance twoPointCorrection 1200) = 2.5 := by
  have hd1 : distance twoPointCorrection 12520 = 25.04 := by
    norm_num [distance, twoPointCorrection, plainCorrection, DISTANCE_RESOLUTION]
  have hd2 : distance twoPointCorrection 1200 = 2.4 := by
    norm_num [distance, twoPointCorrection, plainCorrection, DISTANCE_RESOLUTION]
  have hx1 : xx twoPointCorrection 0 1 (distance twoPointCorrection 12520) = 25.04 := by
    rw [hd1]
    norm_num [xx, xy_distance, twoPointCorrection, plainCorrection]
  have hx2 : xx twoPointCorrection 0 1 (distance twoPointCorrection 1200) = 2.4 := by
    rw [hd2]
    norm_num [xx, xy_distance, twoPointCorrection, plainCorrection]
  have h1 := (C17_two_point_interpolation twoPointCorrection 0 1 12520 rfl).2.2.1 hx1
  have h2 := (C17_two_point_interpolation twoPointCorrection 0 1 1200 rfl).2.2.2.1 hx2
  refine ⟨rfl, hx1, ?_, hx2, ?_⟩
  · rw [h1.2, hd1]
  · rw [h2]
    norm_num [twoPointCorrection, plainCorrection]

/-! ## The range of the bounds stored by `setParameters` -/

theorem fmod_of_nonneg (x y : ℚ) (hy : 0 < y) (hx : 0 ≤ x) :
    0 ≤ fmod x y ∧ fmod x y < y := by
  have hq : 0 ≤ x / y := div_nonneg hx hy.le
  have hxy : x = x / y * y := by field_simp
  have h1 : ((⌊x / y⌋ : Int) : ℚ) ≤ x / y := Int.floor_le _
  have h2 : x / y < ((⌊x / y⌋ : Int) : ℚ) + 1 := Int.lt_floor_add_one _
  have e : fmod x y = (x / y - ((⌊x / y⌋ : Int) : ℚ)) * y := by
    unfold fmod truncToInt
    rw [if_pos hq]
    nth_rewrite 1 [hxy]
    ring
  rw [e]
  constructor
  · exact mul_nonneg (by linarith) hy.le
  · have : (x / y - ((⌊x / y⌋ : Int) : ℚ)) * y < 1 * y :=
      mul_lt_mul_of_pos_right (by linarith) hy
    linarith

theorem fmod_of_neg (x y : ℚ) (hy : 0 < y) (hx : x < 0) :
    -y < fmod x y ∧ fmod x y ≤ 0 := by
  have hq : ¬ 0 ≤ x / y := not_le.mpr (div_neg_of_neg_of_pos hx hy)
  have hxy : x = x / y * y := by field_simp
  have h1 : x / y ≤ ((⌈x / y⌉ : Int) : ℚ) := Int.le_ceil _
  have h2 : ((⌈x / y⌉ : Int) : ℚ) < x / y + 1 := Int.ceil_lt_add_one _
  have e : fmod x y = (x / y - ((⌈x / y⌉ : Int) : ℚ)) * y := by
    unfold fmod truncToInt
    rw [if_neg hq]
    nth_rewrite 1 [hxy]
    ring
  rw [e]
  constructor
  · have : (-1) * y < (x / y - ((⌈x / y⌉ : Int) : ℚ)) * y :=
      mul_lt_mul_of_pos_right (by linarith) hy
    linarith
  · exact mul_nonpos_of_nonpos_of_nonneg (by linarith) hy.le

/-- The double modulo of lines 63–64 yields an angle in `[0, 2 * M_PI)`. -/
theorem positiveModulo_range (a : ℚ) :
    0 ≤ positiveModulo a ∧ positiveModulo a < 2 * M_PI := by
  have hpi := M_PI_pos
  have h1 : -(2 * M_PI) < fmod a (2 * M_PI) := by
    rcases le_or_lt 0 a with h | h
    · have := (fmod_of_nonneg a _ hpi h).1
      linarith
    · exact (fmod_of_neg a _ hpi h).1
  unfold positiveModulo
  exact fmod_of_nonneg _ _ hpi (by linarith)

/-- The conversion of lines 68–69 maps `[0, 2 * M_PI)` into `[0, 36000]`. -/
theorem toHardwareAngle_range (tmp : ℚ) (h0 : 0 ≤ tmp) (h1 : tmp < 2 * M_PI) :
    0 ≤ toHardwareAngle tmp ∧ toHardwareAngle tmp ≤ 36000 := by
  have hpi : (0 : ℚ) < M_PI := by norm_num [M_PI]
  have hlo : 0 ≤ 100 * (2 * M_PI - tmp) * 180 / M_PI :=
    div_nonneg (by nlinarith) hpi.le
  have hhi : 100 * (2 * M_PI - tmp) * 180 / M_PI ≤ 36000 := by
    rw [div_le_iff₀ hpi]
    nlinarith
  have hq : 0 ≤ 100 * (2 * M_PI - tmp) * 180 / M_PI + 1 / 2 := by linarith
  unfold toHardwareAngle truncToInt
  rw [if_pos hq]
  constructor
  · exact Int.floor_nonneg.mpr hq
  · have : ⌊100 * (2 * M_PI - tmp) * 180 / M_PI + 1 / 2⌋ < 36001 := by
      rw [Int.floor_lt]
      push_cast
      linarith
    omega

/-- The bounds stored by `setParameters` lie in `[0, 36000]` and differ. -/
theorem setParameters_angles (min_range max_range view_direction view_width : ℚ) :
    0 ≤ (setParameters min_range max_range view_direction view_width).min_angle ∧
    (setParameters min_range max_range view_direction view_width).min_angle ≤ 36000 ∧
    0 ≤ (setParameters min_range max_range view_direction view_width).max_angle ∧
    (setParameters min_range max_range view_direction view_width).max_angle ≤ 36000 ∧
    (setParameters min_range max_range view_direction view_width).min_angle ≠
      (setParameters min_range max_range view_direction view_width).max_angle := by
  have ha := positiveModulo_range (view_direction + view_width / 2)
  have hb := positiveModulo_range (view_direction - view_width / 2)
  have h1 := toHardwareAngle_range _ ha.1 ha.2
  have h2 := toHardwareAngle_range _ hb.1 hb.2
  unfold setParameters
  simp only
  split_ifs with h
  · refine ⟨le_refl (0 : Int), ?_, ?_, le_refl (36000 : Int), ?_⟩
    · show (0 : Int) ≤ 36000
      decide
    · show (0 : Int) ≤ 36000
      decide
    · show (0 : Int) ≠ 36000
      decide
  · exact ⟨h1.1, h1.2, h2.1, h2.2, h⟩

/-- The double modulo of lines 63–64 on an angle in `[0, 2 * M_PI)`. -/
theorem positiveModulo_small_nonneg (a : ℚ) (h0 : 0 ≤ a) (h1 : a < 2 * M_PI) :
    positiveModulo a = a := by
  have hpi := M_PI_pos
  have e1 : truncToInt (a / (2 * M_PI)) = 0 := by
    apply truncToInt_of_nonneg
    · exact div_nonneg h0 hpi.le
    · push_cast; exact div_nonneg h0 hpi.le
    · rw [div_lt_iff₀ hpi]; push_cast; linarith
  have e2 : truncToInt ((a + 2 * M_PI) / (2 * M_PI)) = 1 := by
    apply truncToInt_of_nonneg
    · exact div_nonneg (by linarith) hpi.le
    · rw [le_div_iff₀ hpi]; push_cast; linarith
    · rw [div_lt_iff₀ hpi]; push_cast; linarith
  unfold positiveModulo
  have f1 : fmod a (2 * M_PI) = a := by unfold fmod; rw [e1]; simp
  rw [f1]
  unfold fmod; rw [e2]; simp

theorem frontConfig_angles : frontConfig.min_angle = 33135 ∧ frontConfig.max_angle = 2865 := by
  have h1 : toHardwareAngle (positiveModulo (0 + 1 / 2)) = 33135 := by
    rw [positiveModulo_small_nonneg _ (by norm_num) (by norm_num [M_PI])]
    unfold toHardwareAngle
    apply truncToInt_of_nonneg <;> norm_num [M_PI]
  have h2 : toHardwareAngle (positiveModulo (0 - 1 / 2)) = 2865 := by
    rw [positiveModulo_small_neg _ (by norm_num) (by norm_num [M_PI])]
    unfold toHardwareAngle
    apply truncToInt_of_nonneg <;> norm_num [M_PI]
  unfold frontConfig setParameters
  simp only [h1, h2]
  constructor <;> rfl

/-! ## C20: the stored angular bounds -/

/-- C20: for all inputs `view_direction` and `view_width` the bounds stored by
`setParameters` satisfy `0 ≤ min_angle ≤ 36000`, `0 ≤ max_angle ≤ 36000` and
`min_angle ≠ max_angle`; hence the angular containment test is in exactly one of
its two cases, the plain window (`min_angle < max_angle`, accepting
`min_angle ≤ a ≤ max_angle`) or the wrap-around window (`min_angle > max_angle`,
accepting `a ≤ max_angle` or `a ≥ min_angle`), and never in the case
`min_angle = max_angle`, which rejects every azimuth. -/
theorem C20_stored_bounds :
    (∀ min_range max_range view_direction view_width : ℚ,
      0 ≤ (setParameters min_range max_range view_direction view_width).min_angle ∧
      (setParameters min_range max_range view_direction view_width).min_angle ≤ 36000 ∧
      0 ≤ (setParameters min_range max_range view_direction view_width).max_angle ∧
      (setParameters min_range max_range view_direction view_width).max_angle ≤ 36000 ∧
      (setParameters min_range max_range view_direction view_width).min_angle ≠
        (setParameters min_range max_range view_direction view_width).max_angle) ∧
    (∀ (min_range max_range view_direction view_width : ℚ) (a : Int),
      ((setParameters min_range max_range view_direction view_width).min_angle <
          (setParameters min_range max_range view_direction view_width).max_angle ∧
        (angleInView (setParameters min_range max_range view_direction view_width).min_angle
            (setParameters min_range max_range view_direction view_width).max_angle a = true ↔
          (setParameters min_range max_range view_direction view_width).min_angle ≤ a ∧
          a ≤ (setParameters min_range max_range view_direction view_width).max_angle)) ∨
      ((setParameters min_range max_range view_direction view_width).min_angle >
          (setParameters min_range max_range view_direction view_width).max_angle ∧
        (angleInView (setParameters min_range max_range view_direction view_width).min_angle
            (setParameters min_range max_range view_direction view_width).max_angle a = true ↔
          a ≤ (setParameters min_range max_range view_direction view_width).max_angle ∨
          a ≥ (setParameters min_range max_range view_direction view_width).min_angle))) ∧
    (∀ m a : Int, angleInView m m a = false) := by
  refine ⟨setParameters_angles, ?_, ?_⟩
  · intro min_range max_range view_direction view_width a
    have hne := (setParameters_angles min_range max_range view_direction view_width).2.2.2.2
    rcases lt_or_gt_of_ne hne with h | h
    · left
      refine ⟨h, ?_⟩
      rw [angleInView_iff]
      unfold specContains
      constructor
      · rintro (⟨_, h1, h2⟩ | ⟨h1, _⟩)
        · exact ⟨h1, h2⟩
        · exact absurd h1 (not_lt.mpr h.le)
      · rintro ⟨h1, h2⟩
        exact Or.inl ⟨h, h1, h2⟩
    · right
      refine ⟨h, ?_⟩
      rw [angleInView_iff]
      unfold specContains
      constructor
      · rintro (⟨h1, _, _⟩ | ⟨_, h2⟩)
        · exact absurd h1 (not_lt.mpr (le_of_lt h))
        · exact h2
      · intro h2
        exact Or.inr ⟨h, h2⟩
  · intro m a
    unfold angleInView
    simp

/-- C20, witness: the three configurations used in this development. -/
theorem C20_stored_bounds_witness :
    (defaultConfig.min_angle = 0 ∧ defaultConfig.max_angle = 36000) ∧
    (narrowConfig.min_angle = 2865 ∧ narrowConfig.max_angle = 8594) ∧
    (frontConfig.min_angle = 33135 ∧ frontConfig.max_angle = 2865) ∧
    frontConfig.min_angle ≠ frontConfig.max_angle :=
  ⟨⟨by rw [defaultConfig_eq], by rw [defaultConfig_eq]⟩, narrowConfig_angles, frontConfig_angles,
    (C20_stored_bounds.1 (3 / 10) 150 0 1).2.2.2.2⟩

/-! ## C18: containment test and table index in the generic decoder -/

/-- C18, counterexample: with the default configuration, whose window is
`(0, 36000)`, the block rotation 36000 of `overflowPacket` passes the angular
containment test although it is not below `ROTATION_MAX_UNITS = 36000`; the
generic decoder emits the point of return 0 of block 0 with that azimuth, after
reading the tables at index 36000.  In the wrap-around window
`(33135, 2865)` of `frontConfig` the rotation 40000 passes as well. -/
theorem C18_rotation_36000_passes :
    (overflowPacket.blocks 0).rotation = 36000 ∧
    angleInView defaultConfig.min_angle defaultConfig.max_angle
      ((overflowPacket.blocks 0).rotation : Int) = true ∧
    ¬ (overflowPacket.blocks 0).rotation < ROTATION_MAX_UNITS ∧
    genericEmitted (plainDecoder 64 defaultConfig) overflowPacket 0 0 ∈
      (unpack (plainDecoder 64 defaultConfig) overflowPacket).2 ∧
    (genericEmitted (plainDecoder 64 defaultConfig) overflowPacket 0 0).pt.azimuth = 36000 ∧
    frontConfig.min_angle > frontConfig.max_angle ∧
    angleInView frontConfig.min_angle frontConfig.max_angle 40000 = true := by
  refine ⟨rfl, ?_, by decide, ?_, rfl, ?_, ?_⟩
  · rw [defaultConfig_eq]
    decide
  · have h64 : (plainDecoder 64 defaultConfig).calibration_.num_lasers ≠ 16 := by decide
    unfold unpack
    rw [if_neg h64, unpack_generic_eq_spec, mem_unpack_spec]
    refine ⟨0, 0, by decide, by decide, ?_, rfl⟩
    unfold specEmits specDistance
    show specContains defaultConfig.min_angle defaultConfig.max_angle _ ∧
      defaultConfig.min_range ≤ _ ∧ _ ≤ defaultConfig.max_range
    rw [defaultConfig_eq]
    refine ⟨by decide, ?_, ?_⟩ <;>
      norm_num [overflowPacket, plainDecoder, plainCorrection]
  · rw [frontConfig_angles.1, frontConfig_angles.2]
    decide
  · rw [frontConfig_angles.1, frontConfig_angles.2]
    decide

/-- C18, as amended: in the generic decoder the angular containment test bounds
the table index only in a plain window.  For every angular window
`(min_angle, max_angle)` that `setParameters` can produce, a block rotation that
passes the test with `min_angle < max_angle` is at most `max_angle ≤ 36000`, and
is a valid index (`< 36000`) when `max_angle < 36000`; in a wrap-around window
(`min_angle > max_angle`) every rotation from `min_angle` on passes, so there the
test does not bound the index. -/
theorem C18_containment_and_index (min_range max_range view_direction view_width : ℚ)
    (r : Nat)
    (hpass : angleInView (setParameters min_range max_range view_direction view_width).min_angle
      (setParameters min_range max_range view_direction view_width).max_angle (r : Int) = true) :
    ((setParameters min_range max_range view_direction view_width).min_angle <
        (setParameters min_range max_range view_direction view_width).max_angle →
      (r : Int) ≤ (setParameters min_range max_range view_direction view_width).max_angle ∧
      r ≤ 36000 ∧
      ((setParameters min_range max_range view_direction view_width).max_angle < 36000 →
        r < ROTATION_MAX_UNITS)) ∧
    ((setParameters min_range max_range view_direction view_width).min_angle >
        (setParameters min_range max_range view_direction view_width).max_angle →
      ∀ r2 : Nat,
        (r2 : Int) ≥ (setParameters min_range max_range view_direction view_width).min_angle →
        angleInView (setParameters min_range max_range view_direction view_width).min_angle
          (setParameters min_range max_range view_direction view_width).max_angle (r2 : Int)
            = true) := by
  have hb := setParameters_angles min_range max_range view_direction view_width
  constructor
  · intro hlt
    have h := (angleInView_iff _ _ _).mp hpass
    rcases h with ⟨_, _, h2⟩ | ⟨h1, _⟩
    · refine ⟨h2, ?_, ?_⟩
      · have := hb.2.2.2.1
        omega
      · intro hmax
        unfold ROTATION_MAX_UNITS
        omega
    · exact absurd h1 (not_lt.mpr hlt.le)
  · intro hgt r2 hr
    rw [angleInView_iff]
    exact Or.inr ⟨hgt, Or.inr hr⟩

/-- C18, witness: in the plain window `(2865, 8594)` of `narrowConfig` the
rotation 3000 passes and is a valid index. -/
theorem C18_containment_and_index_witness :
    angleInView narrowConfig.min_angle narrowConfig.max_angle ((3000 : Nat) : Int) = true ∧
    narrowConfig.min_angle < narrowConfig.max_angle ∧
    narrowConfig.max_angle < 36000 ∧
    3000 < ROTATION_MAX_UNITS := by
  have hp : angleInView narrowConfig.min_angle narrowConfig.max_angle ((3000 : Nat) : Int)
      = true := by
    rw [narrowConfig_angles.1, narrowConfig_angles.2]
    decide
  have hlt : narrowConfig.min_angle < narrowConfig.max_angle := by
    rw [narrowConfig_angles.1, narrowConfig_angles.2]
    decide
  have hmax : narrowConfig.max_angle < 36000 := by
    rw [narrowConfig_angles.2]
    decide
  exact ⟨hp, hlt, hmax,
    ((C18_containment_and_index (3 / 10) 150 (-1) 1 3000 hp).1 hlt).2.2 hmax⟩

/-! ## C19: azimuth difference and table index in the 16-beam decoder -/

/-- The corrected azimuth is a valid table index when the azimuth difference
is not negative. -/
theorem azimuth_corrected_range (r : Nat) (ad : ℚ) (had : 0 ≤ ad) (firing dsr : Nat) :
    0 ≤ azimuth_corrected (r : ℚ) ad firing dsr ∧
    azimuth_corrected (r : ℚ) ad firing dsr ≤ 35999 := by
  unfold azimuth_corrected
  rw [Int.tmod_eq_emod (cround_nonneg _ (azimuth_corrected_f_nonneg r ad had firing dsr))
    (by decide)]
  have h1 := Int.emod_nonneg (cround (azimuth_corrected_f (r : ℚ) ad firing dsr))
    (show (36000 : Int) ≠ 0 by decide)
  have h2 := Int.emod_lt_of_pos (cround (azimuth_corrected_f (r : ℚ) ad firing dsr))
    (show (0 : Int) < 36000 by decide)
  exact ⟨h1, by omega⟩

/-- C19: in the 16-beam decoder, for every packet, whatever the rotation fields
hold, the azimuth difference with which a processed block is interpolated is
non-negative and below 36000 (the value kept in `last_azimuth_diff` stays in
that range throughout the loop, and so does every difference selected from
it), and every corrected azimuth computed with such a difference, which is the
table index and the azimuth reported with an emitted point, lies in
`[0, 35999]`. -/
theorem C19_vlp16_index_range :
    (∀ (rd : RawData) (pkt : VelodynePacket) (m : Nat),
      0 ≤ (vlp16_blocks rd pkt m 0 vlp16_init).last_azimuth_diff ∧
      (vlp16_blocks rd pkt m 0 vlp16_init).last_azimuth_diff < 36000) ∧
    (∀ (rd : RawData) (pkt : VelodynePacket) (m : Nat) (ad : ℚ),
      select_azimuth_diff pkt m (vlp16_blocks rd pkt m 0 vlp16_init).last_azimuth_diff = some ad →
      0 ≤ ad ∧ ad < 36000) ∧
    (∀ (r : Nat) (ad : ℚ) (firing dsr : Nat), 0 ≤ ad →
      0 ≤ azimuth_corrected (r : ℚ) ad firing dsr ∧
      azimuth_corrected (r : ℚ) ad firing dsr ≤ 35999) ∧
    (∀ (rd : RawData) (pkt : VelodynePacket), ∀ e ∈ (unpack_vlp16 rd pkt).2,
      (∃ block ad, 0 ≤ ad ∧ ad < 36000 ∧
        ∃ firing < VLP16_FIRINGS_PER_BLOCK, ∃ dsr < VLP16_SCANS_PER_FIRING,
          Vlp16From rd pkt block ad firing dsr e) ∧
      0 ≤ e.pt.azimuth ∧ e.pt.azimuth ≤ 35999) := by
  have hinit0 : (0 : ℚ) ≤ vlp16_init.last_azimuth_diff := le_refl 0
  have hinit1 : vlp16_init.last_azimuth_diff < 36000 := by
    show (0 : ℚ) < 36000
    norm_num
  refine ⟨?_, ?_, ?_, ?_⟩
  · intro rd pkt m
    exact vlp16_blocks_last_range rd pkt m 0 vlp16_init hinit0 hinit1
  · intro rd pkt m ad hsel
    have h := vlp16_blocks_last_range rd pkt m 0 vlp16_init hinit0 hinit1
    exact select_azimuth_diff_range pkt m _ ad h.1 h.2 hsel
  · intro r ad firing dsr had
    exact azimuth_corrected_range r ad had firing dsr
  · intro rd pkt e he
    rcases vlp16_blocks_data_mem_range rd pkt BLOCKS_PER_PACKET 0 vlp16_init hinit0 hinit1 e he
      with h | ⟨blk, ad, h0, h1, firing, hf, dsr, hd, h⟩
    · simp [vlp16_init] at h
    · refine ⟨⟨blk, ad, h0, h1, firing, hf, dsr, hd, h⟩, ?_⟩
      rw [h.1]
      exact azimuth_corrected_range _ ad h0 firing dsr

/-- C19, witness: a rotation field of 65535 with the difference 35999 in the
last return of a block still gives an index in `[0, 35999]`. -/
theorem C19_vlp16_index_range_witness :
    0 ≤ azimuth_corrected ((65535 : Nat) : ℚ) 35999 1 15 ∧
    azimuth_corrected ((65535 : Nat) : ℚ) 35999 1 15 ≤ 35999 :=
  C19_vlp16_index_range.2.2.1 65535 35999 1 15 (by norm_num)

/-! ## C21: the emitted coordinates of an ideal beam -/

/-- The corrected rotation pair has unit norm when the table entry and the
rotational correction have. -/
theorem rot_angle_unit (rd : RawData) (c : LaserCorrection) (idx : Int)
    (ht : unitTableEntry rd idx)
    (hc : c.sin_rot_correction ^ 2 + c.cos_rot_correction ^ 2 = 1) :
    sin_rot_angle rd c idx ^ 2 + cos_rot_angle rd c idx ^ 2 = 1 := by
  unfold unitTableEntry at ht
  have h : sin_rot_angle rd c idx ^ 2 + cos_rot_angle rd c idx ^ 2 =
      (rd.sin_rot_table_ idx ^ 2 + rd.cos_rot_table_ idx ^ 2) *
        (c.sin_rot_correction ^ 2 + c.cos_rot_correction ^ 2) := by
    unfold sin_rot_angle cos_rot_angle
    ring
  rw [h, ht, hc]
  norm_num

/-- The coordinates computed for an ideal beam from the distance `d` and a
rotation pair of unit norm. -/
theorem ideal_coordinates (c : LaserCorrection) (cosr sinr d : ℚ) (hc : idealBeam c)
    (hr : sinr ^ 2 + cosr ^ 2 = 1) :
    x_coord c cosr sinr d = d * c.cos_vert_correction * cosr ∧
    y_coord c cosr sinr d = -(d * c.cos_vert_correction * sinr) ∧
    z_coord c cosr sinr d = d * c.sin_vert_correction ∧
    x_coord c cosr sinr d ^ 2 + y_coord c cosr sinr d ^ 2 + z_coord c cosr sinr d ^ 2 = d ^ 2 := by
  obtain ⟨hh, hv, h2, hvert, _⟩ := hc
  have hdx : distance_x c cosr sinr d = d := by
    unfold distance_x distance_corr_x
    rw [h2]
    simp
  have hdy : distance_y c cosr sinr d = d := by
    unfold distance_y distance_corr_y
    rw [h2]
    simp
  have hx : x_coord c cosr sinr d = d * c.cos_vert_correction * cosr := by
    unfold x_coord y_val xy_distance
    rw [hdy, hh, hv]
    ring
  have hy : y_coord c cosr sinr d = -(d * c.cos_vert_correction * sinr) := by
    unfold y_coord x_val xy_distance
    rw [hdx, hh, hv]
    ring
  have hz : z_coord c cosr sinr d = d * c.sin_vert_correction := by
    unfold z_coord z_val
    rw [hdy, hv]
    ring
  refine ⟨hx, hy, hz, ?_⟩
  rw [hx, hy, hz]
  have e : (d * c.cos_vert_correction * cosr) ^ 2 + (-(d * c.cos_vert_correction * sinr)) ^ 2 +
      (d * c.sin_vert_correction) ^ 2 =
      d ^ 2 * (c.cos_vert_correction ^ 2 * (sinr ^ 2 + cosr ^ 2) + c.sin_vert_correction ^ 2) := by
    ring
  rw [e, hr]
  have : c.cos_vert_correction ^ 2 * 1 + c.sin_vert_correction ^ 2 = 1 := by linarith
  rw [this]
  ring

/-- C21: in both decoders, in exact arithmetic, a point emitted for a beam with
`horiz_offset_correction = 0`, `vert_offset_correction = 0`, two-point
correction unavailable and entries with `sin^2 + cos^2 = 1` for the vertical
angle, the rotational correction and the table entry of its azimuth satisfies
`x^2 + y^2 + z^2 = d^2`, where `d` is the reported corrected distance, and has
the coordinates
`(x, y, z) = (d * cos_v * cos_rot_angle, -d * cos_v * sin_rot_angle, d * sin_v)`:
the internal `(x, y)` is handed over as `(y, -x)`. -/
theorem C21_ideal_beam_point (rd : RawData) (pkt : VelodynePacket) :
    (∀ e ∈ (unpack_generic rd pkt).2,
      idealBeam (rd.calibration_.laser_corrections
        (e.scan + bank_origin (pkt.blocks e.block).header)) →
      unitTableEntry rd e.pt.azimuth →
      e.pt.x ^ 2 + e.pt.y ^ 2 + e.pt.z ^ 2 = e.pt.distance ^ 2 ∧
      e.pt.x = e.pt.distance *
        (rd.calibration_.laser_corrections
          (e.scan + bank_origin (pkt.blocks e.block).header)).cos_vert_correction *
        cos_rot_angle rd (rd.calibration_.laser_corrections
          (e.scan + bank_origin (pkt.blocks e.block).header)) e.pt.azimuth ∧
      e.pt.y = -(e.pt.distance *
        (rd.calibration_.laser_corrections
          (e.scan + bank_origin (pkt.blocks e.block).header)).cos_vert_correction *
        sin_rot_angle rd (rd.calibration_.laser_corrections
          (e.scan + bank_origin (pkt.blocks e.block).header)) e.pt.azimuth) ∧
      e.pt.z = e.pt.distance *
        (rd.calibration_.laser_corrections
          (e.scan + bank_origin (pkt.blocks e.block).header)).sin_vert_correction) ∧
    (∀ e ∈ (unpack_vlp16 rd pkt).2,
      idealBeam (rd.calibration_.laser_corrections (e.scan % 16)) →
      unitTableEntry rd e.pt.azimuth →
      e.pt.x ^ 2 + e.pt.y ^ 2 + e.pt.z ^ 2 = e.pt.distance ^ 2 ∧
      e.pt.x = e.pt.distance *
        (rd.calibration_.laser_corrections (e.scan % 16)).cos_vert_correction *
        cos_rot_angle rd (rd.calibration_.laser_corrections (e.scan % 16)) e.pt.azimuth ∧
      e.pt.y = -(e.pt.distance *
        (rd.calibration_.laser_corrections (e.scan % 16)).cos_vert_correction *
        sin_rot_angle rd (rd.calibration_.laser_corrections (e.scan % 16)) e.pt.azimuth) ∧
      e.pt.z = e.pt.distance *
        (rd.calibration_.laser_corrections (e.scan % 16)).sin_vert_correction) := by
  constructor
  · intro e he
    rw [unpack_generic_eq_spec] at he
    obtain ⟨i, j, _, hj, _, rfl⟩ := (mem_unpack_spec rd pkt e).mp he
    have hb : j + bank_origin (pkt.blocks i).header < 256 := by
      unfold bank_origin
      split_ifs <;> omega
    have hl : laser_number (pkt.blocks i).header j = j + bank_origin (pkt.blocks i).header := by
      unfold laser_number
      exact Nat.mod_eq_of_lt hb
    show idealBeam (rd.calibration_.laser_corrections (j + bank_origin (pkt.blocks i).header)) →
      unitTableEntry rd ((pkt.blocks i).rotation : Int) → _
    intro hc ht
    have h := ideal_coordinates _ _ _
      (distance (rd.calibration_.laser_corrections (j + bank_origin (pkt.blocks i).header))
        (tmp_uint (pkt.blocks i) (j * RAW_SCAN_SIZE))) hc
      (rot_angle_unit rd _ ((pkt.blocks i).rotation : Int) ht hc.2.2.2.2)
    unfold genericEmitted genericPoint
    simp only [hl]
    exact ⟨h.2.2.2, h.1, h.2.1, h.2.2.1⟩
  · intro e he
    obtain ⟨blk, ad, _, firing, _, dsr, hdsr, h⟩ := unpack_vlp16_data_mem rd pkt e he
    have hmod : (firing * VLP16_SCANS_PER_FIRING + dsr) % 16 = dsr := by
      unfold VLP16_SCANS_PER_FIRING at hdsr ⊢
      omega
    rw [h.1]
    show idealBeam (rd.calibration_.laser_corrections
        ((firing * VLP16_SCANS_PER_FIRING + dsr) % 16)) →
      unitTableEntry rd (azimuth_corrected ((pkt.blocks blk).rotation : ℚ) ad firing dsr) → _
    rw [hmod]
    intro hc ht
    have h2 := ideal_coordinates _ _ _
      (distance (rd.calibration_.laser_corrections dsr)
        (tmp_uint (pkt.blocks blk) ((firing * VLP16_SCANS_PER_FIRING + dsr) * RAW_SCAN_SIZE))) hc
      (rot_angle_unit rd _ (azimuth_corrected ((pkt.blocks blk).rotation : ℚ) ad firing dsr)
        ht hc.2.2.2.2)
    unfold vlp16Point
    simp only [hmod]
    exact ⟨h2.2.2.2, h2.1, h2.2.1, h2.2.2.1⟩

/-- C21, witness: the generic decoder with the beams of `tiltedCorrection`,
table entries `(sin, cos) = (4/5, 3/5)` and the default configuration emits
return 0 of block 0 of `steadyPacket` with `d = 257/500`,
`(cos_rot_angle, sin_rot_angle) = (24/25, 7/25)` and the coordinates
`(d * 12/13 * 24/25, -d * 12/13 * 7/25, d * 5/13)`, whose squares sum to
`d^2`. -/
theorem C21_ideal_beam_point_witness :
    genericEmitted (tiltedDecoder defaultConfig) steadyPacket 0 0 ∈
      (unpack_generic (tiltedDecoder defaultConfig) steadyPacket).2 ∧
    idealBeam tiltedCorrection ∧
    (genericEmitted (tiltedDecoder defaultConfig) steadyPacket 0 0).pt.distance = 257 / 500 ∧
    (genericEmitted (tiltedDecoder defaultConfig) steadyPacket 0 0).pt.x =
      257 / 500 * (12 / 13) * (24 / 25) ∧
    (genericEmitted (tiltedDecoder defaultConfig) steadyPacket 0 0).pt.y =
      -(257 / 500 * (12 / 13) * (7 / 25)) ∧
    (genericEmitted (tiltedDecoder defaultConfig) steadyPacket 0 0).pt.z =
      257 / 500 * (5 / 13) ∧
    (genericEmitted (tiltedDecoder defaultConfig) steadyPacket 0 0).pt.x ^ 2 +
      (genericEmitted (tiltedDecoder defaultConfig) steadyPacket 0 0).pt.y ^ 2 +
      (genericEmitted (tiltedDecoder defaultConfig) steadyPacket 0 0).pt.z ^ 2 =
      (genericEmitted (tiltedDecoder defaultConfig) steadyPacket 0 0).pt.distance ^ 2 := by
  have hmem : genericEmitted (tiltedDecoder defaultConfig) steadyPacket 0 0 ∈
      (unpack_generic (tiltedDecoder defaultConfig) steadyPacket).2 := by
    rw [unpack_generic_eq_spec, mem_unpack_spec]
    refine ⟨0, 0, by decide, by decide, ?_, rfl⟩
    unfold specEmits specDistance
    show specContains defaultConfig.min_angle defaultConfig.max_angle _ ∧
      defaultConfig.min_range ≤ _ ∧ _ ≤ defaultConfig.max_range
    rw [defaultConfig_eq]
    refine ⟨by decide, ?_, ?_⟩ <;>
      norm_num [steadyPacket, tiltedDecoder, tiltedCorrection, plainCorrection]
  have hideal : idealBeam tiltedCorrection := by
    unfold idealBeam
    norm_num [tiltedCorrection, plainCorrection]
  have hunit : unitTableEntry (tiltedDecoder defaultConfig)
      (genericEmitted (tiltedDecoder defaultConfig) steadyPacket 0 0).pt.azimuth := by
    unfold unitTableEntry
    norm_num [tiltedDecoder]
  have h := (C21_ideal_beam_point (tiltedDecoder defaultConfig) steadyPacket).1 _ hmem
    hideal hunit
  have hd : (genericEmitted (tiltedDecoder defaultConfig) steadyPacket 0 0).pt.distance
      = 257 / 500 := by
    show distance tiltedCorrection (tmp_uint (steadyPacket.blocks 0) (0 * RAW_SCAN_SIZE)) = _
    norm_num [distance, tmp_uint, steadyPacket, tiltedCorrection, plainCorrection,
      DISTANCE_RESOLUTION]
  have hcos : cos_rot_angle (tiltedDecoder defaultConfig) tiltedCorrection
      (genericEmitted (tiltedDecoder defaultConfig) steadyPacket 0 0).pt.azimuth = 24 / 25 := by
    norm_num [cos_rot_angle, tiltedDecoder, tiltedCorrection, plainCorrection]
  have hsin : sin_rot_angle (tiltedDecoder defaultConfig) tiltedCorrection
      (genericEmitted (tiltedDecoder defaultConfig) steadyPacket 0 0).pt.azimuth = 7 / 25 := by
    norm_num [sin_rot_angle, tiltedDecoder, tiltedCorrection, plainCorrection]
  have hx := h.2.1
  have hy := h.2.2.1
  have hz := h.2.2.2
  have hcv : ((tiltedDecoder defaultConfig).calibration_.laser_corrections
      ((genericEmitted (tiltedDecoder defaultConfig) steadyPacket 0 0).scan +
        bank_origin (steadyPacket.blocks
          (genericEmitted (tiltedDecoder defaultConfig) steadyPacket 0 0).block).header))
      = tiltedCorrection := rfl
  rw [hcv, hd] at hx hy hz
  rw [hcos] at hx
  rw [hsin] at hy
  refine ⟨hmem, hideal, hd, ?_, ?_, ?_, h.1⟩
  · rw [hx]; norm_num [tiltedCorrection, plainCorrection]
  · rw [hy]; norm_num [tiltedCorrection, plainCorrection]
  · rw [hz]; norm_num [tiltedCorrection, plainCorrection]

end velodyne_driver
